import Mathlib

/-!
Verification of the QuickBooks MCP OAuth broker.

A shallow embedding, in Lean 4, of the OAuth-broker core of the
`quickbooks-online-mcp-server` repository: the PKCE utilities
(`src/utils/pkce-verifier.ts`), the state encoding
(`src/utils/token-generator.ts`), the short-lived stores
(`auth-code-storage`, `pkce-storage`, `qb-oauth-state-storage`), the durable
stores (`quickbooks-session-storage`, `mcp-token-storage`), the HTTP handlers
(`/authorize`, `/oauth/callback`, `/token`, the `/mcp` gate) and the token
refresh service.

JavaScript idioms are modelled as follows: a JS `Map` is an insertion-ordered
association list (`JsMap`); `Date.now()` and the random generators
(`generateSessionId`, `generateAuthCode`, `generateMCPToken`) are explicit
parameters of each handler; `await` points matter only for the concurrency
model at the end of the file, everywhere else handlers are embedded as pure
state transformers; a possibly-`undefined` string parameter is `Option String`
and JS truthiness on it is `truthy` below (absent or empty string is falsy).
Numbers are `Nat` (all quantities involved are non-negative integers;
timestamps are milliseconds as in JS).
-/

/-! ## JS `Map` model -/

/-- A JS `Map` with string keys: insertion-ordered association list.
`Map.prototype.set` overwrites in place, `delete` removes, iteration follows
insertion order. -/
abbrev JsMap (α : Type) : Type := List (String × α)

/-- The empty map. -/
def JsMap.empty {α : Type} : JsMap α := []

/-- `map.get(k)` : first binding of `k`. -/
def JsMap.get {α : Type} (m : JsMap α) (k : String) : Option α :=
  match m with
  | [] => none
  | (k₀, v₀) :: rest => if k₀ = k then some v₀ else JsMap.get rest k

/-- `map.set(k, v)` : overwrite in place if present, else append. -/
def JsMap.set {α : Type} (m : JsMap α) (k : String) (v : α) : JsMap α :=
  match m with
  | [] => [(k, v)]
  | (k₀, v₀) :: rest =>
      if k₀ = k then (k₀, v) :: rest else (k₀, v₀) :: JsMap.set rest k v

/-- `map.delete(k)` : remove the binding of `k`. -/
def JsMap.del {α : Type} (m : JsMap α) (k : String) : JsMap α :=
  match m with
  | [] => []
  | (k₀, v₀) :: rest =>
      if k₀ = k then rest else (k₀, v₀) :: JsMap.del rest k

/-- Update the value at `k` in place (models mutating the object stored in a
JS `Map`, e.g. `authCode.used = true`). No effect if `k` is absent. -/
def JsMap.update {α : Type} (m : JsMap α) (k : String) (f : α → α) : JsMap α :=
  match m with
  | [] => []
  | (k₀, v₀) :: rest =>
      if k₀ = k then (k₀, f v₀) :: rest else (k₀, v₀) :: JsMap.update rest k f

/-- The keys of a map never repeat when it is built with `set`/`del`;
states reachable in the server satisfy this. -/
def JsMap.Nodup {α : Type} (m : JsMap α) : Prop := (m.map Prod.fst).Nodup

theorem JsMap.get_eq_none_of_not_mem {α : Type} (m : JsMap α) (k : String)
    (h : k ∉ m.map Prod.fst) : m.get k = none := by
  induction m with
  | nil => rfl
  | cons hd tl ih =>
      obtain ⟨k₀, v₀⟩ := hd
      have hne : ¬ k₀ = k := by
        intro hk
        exact h (by simp [hk])
      have htl : k ∉ tl.map Prod.fst := by
        intro hk
        exact h (by simp [hk])
      simp [JsMap.get, hne, ih htl]

theorem JsMap.get_set {α : Type} (m : JsMap α) (k k₁ : String) (v : α) :
    (m.set k v).get k₁ = if k = k₁ then some v else m.get k₁ := by
  induction m with
  | nil => by_cases h : k = k₁ <;> simp [JsMap.set, JsMap.get, h]
  | cons hd tl ih =>
      obtain ⟨k₀, v₀⟩ := hd
      by_cases h₀ : k₀ = k
      · subst h₀
        by_cases h₁ : k₀ = k₁ <;> simp [JsMap.set, JsMap.get, h₁]
      · by_cases h₁ : k₀ = k₁
        · have hne : ¬ k = k₁ := fun h => h₀ (h₁.trans h.symm)
          have hne₂ : ¬ k₁ = k := fun h => hne h.symm
          simp [JsMap.set, JsMap.get, h₀, h₁, hne, hne₂]
        · simp [JsMap.set, JsMap.get, h₀, h₁, ih]

theorem JsMap.get_update {α : Type} (m : JsMap α) (k k₁ : String) (f : α → α) :
    (m.update k f).get k₁ =
      if k = k₁ then (m.get k).map f else m.get k₁ := by
  induction m with
  | nil => by_cases h : k = k₁ <;> simp [JsMap.update, JsMap.get, h]
  | cons hd tl ih =>
      obtain ⟨k₀, v₀⟩ := hd
      by_cases h₀ : k₀ = k
      · subst h₀
        by_cases h₁ : k₀ = k₁ <;> simp [JsMap.update, JsMap.get, h₁]
      · by_cases h₁ : k₀ = k₁
        · have hne : ¬ k = k₁ := fun h => h₀ (h₁.trans h.symm)
          have hne₂ : ¬ k₁ = k := fun h => hne h.symm
          simp [JsMap.update, JsMap.get, h₀, h₁, hne, hne₂]
        · simp [JsMap.update, JsMap.get, h₀, h₁, ih]

theorem JsMap.get_del {α : Type} (m : JsMap α) (k k₁ : String)
    (hnd : m.Nodup) :
    (m.del k).get k₁ = if k = k₁ then none else m.get k₁ := by
  induction m with
  | nil => by_cases h : k = k₁ <;> simp [JsMap.del, JsMap.get, h]
  | cons hd tl ih =>
      obtain ⟨k₀, v₀⟩ := hd
      have hnd' : JsMap.Nodup tl := by
        simpa [JsMap.Nodup] using (List.nodup_cons.mp hnd).2
      have hnotmem : k₀ ∉ tl.map Prod.fst := by
        simpa [JsMap.Nodup] using (List.nodup_cons.mp hnd).1
      by_cases h₀ : k₀ = k
      · subst h₀
        by_cases h₁ : k₀ = k₁
        · subst h₁
          simp [JsMap.del, JsMap.get_eq_none_of_not_mem tl k₀ hnotmem]
        · simp [JsMap.del, JsMap.get, h₁]
      · by_cases h₁ : k₀ = k₁
        · have hne : ¬ k = k₁ := fun h => h₀ (h₁.trans h.symm)
          have hne₂ : ¬ k₁ = k := fun h => hne h.symm
          simp [JsMap.del, JsMap.get, h₀, h₁, hne, hne₂]
        · simp [JsMap.del, JsMap.get, h₀, h₁, ih hnd']

/-- JS truthiness of a possibly-absent string: `undefined` and `""` are falsy. -/
def truthy (s : Option String) : Bool :=
  match s with
  | none => false
  | some str => str ≠ ""

/-! ## Bytes and UTF-8

`Buffer.from(json, 'utf-8')` / `buffer.toString('utf-8')` are modelled over
`List Nat` byte lists. Decoding is strict (invalid sequences fail), where Node
would substitute U+FFFD; the substituted text then fails JSON parsing, so both
models reject the same inputs on the paths verified here. -/

/-- UTF-8 encoding of one unicode scalar value. -/
def utf8EncodeChar (c : Char) : List Nat :=
  let n := c.toNat
  if n < 128 then [n]
  else if n < 2048 then [192 + n / 64, 128 + n % 64]
  else if n < 65536 then [224 + n / 4096, 128 + n / 64 % 64, 128 + n % 64]
  else [240 + n / 262144, 128 + n / 4096 % 64, 128 + n / 64 % 64, 128 + n % 64]

/-- `Buffer.from(s, 'utf-8')`. -/
def utf8Encode (s : String) : List Nat :=
  (s.toList.map utf8EncodeChar).flatten

/-- Is `n` a unicode scalar value (encodable in a `Char`)? -/
def isScalar (n : Nat) : Bool :=
  n < 55296 ∨ (57343 < n ∧ n < 1114112)

/-- Strict UTF-8 decoding of a byte list (shortest-form, scalar-only). -/
def utf8DecodeList (l : List Nat) : Option (List Char) :=
  match l with
  | [] => some []
  | b :: rest =>
    if b < 128 then (utf8DecodeList rest).map fun cs => Char.ofNat b :: cs
    else if b < 192 then none
    else if b < 224 then
      if rest.length < 1 then none
      else
        let b₁ := rest.getD 0 0
        let n := (b - 192) * 64 + (b₁ - 128)
        if 128 ≤ b₁ ∧ b₁ < 192 ∧ 128 ≤ n ∧ isScalar n then
          (utf8DecodeList (rest.drop 1)).map fun cs => Char.ofNat n :: cs
        else none
    else if b < 240 then
      if rest.length < 2 then none
      else
        let b₁ := rest.getD 0 0
        let b₂ := rest.getD 1 0
        let n := (b - 224) * 4096 + (b₁ - 128) * 64 + (b₂ - 128)
        if 128 ≤ b₁ ∧ b₁ < 192 ∧ 128 ≤ b₂ ∧ b₂ < 192 ∧ 2048 ≤ n ∧ isScalar n then
          (utf8DecodeList (rest.drop 2)).map fun cs => Char.ofNat n :: cs
        else none
    else if b < 248 then
      if rest.length < 3 then none
      else
        let b₁ := rest.getD 0 0
        let b₂ := rest.getD 1 0
        let b₃ := rest.getD 2 0
        let n := (b - 240) * 262144 + (b₁ - 128) * 4096 + (b₂ - 128) * 64 + (b₃ - 128)
        if 128 ≤ b₁ ∧ b₁ < 192 ∧ 128 ≤ b₂ ∧ b₂ < 192 ∧ 128 ≤ b₃ ∧ b₃ < 192 ∧
            65536 ≤ n ∧ isScalar n then
          (utf8DecodeList (rest.drop 3)).map fun cs => Char.ofNat n :: cs
        else none
    else none
  termination_by l.length
  decreasing_by
    all_goals simp [List.length_drop]
    all_goals omega

/-- `buffer.toString('utf-8')` (strict variant, see section comment). -/
def utf8Decode (bs : List Nat) : Option String :=
  (utf8DecodeList bs).map fun cs => String.mk cs

/-! ## Base64 and base64url -/

/-- Standard base64 alphabet (RFC 4648 §4), as used by
`buffer.toString('base64')`. -/
def b64CharStd (n : Nat) : Char :=
  if n < 26 then Char.ofNat (65 + n)
  else if n < 52 then Char.ofNat (97 + (n - 26))
  else if n < 62 then Char.ofNat (48 + (n - 52))
  else if n = 62 then '+'
  else '/'

/-- Value of a standard base64 character. -/
def b64ValStd (c : Char) : Option Nat :=
  if 65 ≤ c.toNat ∧ c.toNat ≤ 90 then some (c.toNat - 65)
  else if 97 ≤ c.toNat ∧ c.toNat ≤ 122 then some (26 + (c.toNat - 97))
  else if 48 ≤ c.toNat ∧ c.toNat ≤ 57 then some (52 + (c.toNat - 48))
  else if c = '+' then some 62
  else if c = '/' then some 63
  else none

/-- `buffer.toString('base64')`: encode 3-byte groups, `=`-padded. -/
def b64EncodeGroups : List Nat → List Char
  | [] => []
  | [a] => [b64CharStd (a / 4), b64CharStd (a % 4 * 16), '=', '=']
  | [a, b] =>
      [b64CharStd (a / 4), b64CharStd (a % 4 * 16 + b / 16),
       b64CharStd (b % 16 * 4), '=']
  | a :: b :: c :: rest =>
      b64CharStd (a / 4) :: b64CharStd (a % 4 * 16 + b / 16) ::
      b64CharStd (b % 16 * 4 + c / 64) :: b64CharStd (c % 64) ::
      b64EncodeGroups rest

/-- `Buffer.from(s, 'base64')` on a well-formed, `=`-padded input (strict:
malformed input fails where Node would decode leniently; only well-formed
inputs arise on the verified paths). -/
def b64DecodeGroups : List Char → Option (List Nat)
  | [] => some []
  | c₁ :: c₂ :: c₃ :: c₄ :: rest =>
      if c₃ = '=' ∧ c₄ = '=' ∧ rest = [] then do
        let v₁ ← b64ValStd c₁
        let v₂ ← b64ValStd c₂
        some [v₁ * 4 + v₂ / 16]
      else if c₄ = '=' ∧ rest = [] then do
        let v₁ ← b64ValStd c₁
        let v₂ ← b64ValStd c₂
        let v₃ ← b64ValStd c₃
        some [v₁ * 4 + v₂ / 16, v₂ % 16 * 16 + v₃ / 4]
      else do
        let v₁ ← b64ValStd c₁
        let v₂ ← b64ValStd c₂
        let v₃ ← b64ValStd c₃
        let v₄ ← b64ValStd c₄
        let tail ← b64DecodeGroups rest
        some ([v₁ * 4 + v₂ / 16, v₂ % 16 * 16 + v₃ / 4, v₃ % 4 * 64 + v₄] ++ tail)
  | _ => none

/-- The url-alphabet substitution: `+` becomes `-` and the slash becomes `_`. -/
def b64ToUrlChar (c : Char) : Char :=
  if c = '+' then '-' else if c = '/' then '_' else c

/-- The inverse substitution: `-` becomes `+` and `_` becomes the slash. -/
def urlToB64Char (c : Char) : Char :=
  if c = '-' then '+' else if c = '_' then '/' else c

/-- `base64UrlEncode` (identical in `pkce-verifier.ts` and
`token-generator.ts`): standard base64, then `+`→`-`, `/`→`_`, strip `=`. -/
def base64UrlEncode (bytes : List Nat) : String :=
  String.mk (((b64EncodeGroups bytes).map b64ToUrlChar).filter fun c => c ≠ '=')

/-- `base64UrlDecode`: `-`→`+`, `_`→`/`, re-pad with `=`, standard decode. -/
def base64UrlDecode (s : String) : Option (List Nat) :=
  b64DecodeGroups (s.toList.map urlToB64Char ++
    List.replicate ((4 - (s.toList.map urlToB64Char).length % 4) % 4) '=')

/-! ## Decimal numerals (JS number-to-string for the integers used here) -/

/-- Decimal digits of `n`, most significant first. -/
def decimalRepr (n : Nat) : List Char :=
  if h : n < 10 then [Char.ofNat (48 + n)]
  else decimalRepr (n / 10) ++ [Char.ofNat (48 + n % 10)]
  termination_by n
  decreasing_by exact Nat.div_lt_self (by omega) (by omega)

/-! ## JSON (`JSON.stringify` / `JSON.parse`)

`JSON.parse` is modelled for the JSON fragment the server ever produces or
consumes: strings, integer numbers, booleans, null, arrays and objects.
Numbers with fractional parts or exponents are rejected by the model. -/

inductive JValue where
  | jnull
  | jbool (b : Bool)
  | jnum (neg : Bool) (n : Nat)
  | jstr (s : String)
  | jarr (xs : List JValue)
  | jobj (fields : List (String × JValue))
  deriving Repr, BEq

/-- Lowercase hexadecimal digit. -/
def hexDigitChar (n : Nat) : Char :=
  if n < 10 then Char.ofNat (48 + n) else Char.ofNat (97 + (n - 10))

/-- Value of a hexadecimal digit character (JSON.parse accepts either case). -/
def hexDigitVal (c : Char) : Option Nat :=
  if 48 ≤ c.toNat ∧ c.toNat ≤ 57 then some (c.toNat - 48)
  else if 97 ≤ c.toNat ∧ c.toNat ≤ 102 then some (10 + (c.toNat - 97))
  else if 65 ≤ c.toNat ∧ c.toNat ≤ 70 then some (10 + (c.toNat - 65))
  else none

/-- `JSON.stringify` escaping of one character inside a string literal. -/
def jsonEscapeChar (c : Char) : List Char :=
  if c = '"' then ['\\', '"']
  else if c = '\\' then ['\\', '\\']
  else if c.toNat = 8 then ['\\', 'b']
  else if c.toNat = 9 then ['\\', 't']
  else if c.toNat = 10 then ['\\', 'n']
  else if c.toNat = 12 then ['\\', 'f']
  else if c.toNat = 13 then ['\\', 'r']
  else if c.toNat < 32 then
    ['\\', 'u', '0', '0', hexDigitChar (c.toNat / 16), hexDigitChar (c.toNat % 16)]
  else [c]

/-- `JSON.stringify` of a string. -/
def jsonQuote (s : String) : List Char :=
  '"' :: (s.toList.map jsonEscapeChar).flatten ++ ['"']

/-- Value of a short JSON escape character. -/
def escCharVal (e : Char) : Option Char :=
  if e = '"' then some '"'
  else if e = '\\' then some '\\'
  else if e = '/' then some '/'
  else if e = 'b' then some (Char.ofNat 8)
  else if e = 't' then some (Char.ofNat 9)
  else if e = 'n' then some (Char.ofNat 10)
  else if e = 'f' then some (Char.ofNat 12)
  else if e = 'r' then some (Char.ofNat 13)
  else none

/-- Parse a JSON string body (after the opening quote); returns the decoded
characters and the input remaining after the closing quote. -/
def parseJsonStringBody (l : List Char) : Option (List Char × List Char) :=
  match l with
  | [] => none
  | c :: rest =>
    if c = '"' then some ([], rest)
    else if c = '\\' then
      if rest.length < 1 then none
      else
        let e := rest.getD 0 ' '
        if e = 'u' then
          if rest.length < 5 then none
          else
            match hexDigitVal (rest.getD 1 ' '), hexDigitVal (rest.getD 2 ' '),
                hexDigitVal (rest.getD 3 ' '), hexDigitVal (rest.getD 4 ' ') with
            | some d₁, some d₂, some d₃, some d₄ =>
                let n := d₁ * 4096 + d₂ * 256 + d₃ * 16 + d₄
                if isScalar n then
                  (parseJsonStringBody (rest.drop 5)).map fun p =>
                    (Char.ofNat n :: p.1, p.2)
                else none
            | _, _, _, _ => none
        else
          match escCharVal e with
          | some c₀ =>
              (parseJsonStringBody (rest.drop 1)).map fun p => (c₀ :: p.1, p.2)
          | none => none
    else if c.toNat < 32 then none
    else (parseJsonStringBody rest).map fun p => (c :: p.1, p.2)
  termination_by l.length
  decreasing_by
    all_goals simp [List.length_drop]
    all_goals omega

/-- Digits-to-value accumulator for decimal parsing. -/
def digitsVal (acc : Nat) : List Char → Nat
  | [] => acc
  | c :: rest => digitsVal (acc * 10 + (c.toNat - 48)) rest

/-- Is this an ASCII digit? -/
def isDigitChar (c : Char) : Bool := 48 ≤ c.toNat ∧ c.toNat ≤ 57

/-- JSON whitespace. -/
def isJsonWs (c : Char) : Bool :=
  c = ' ' ∨ c.toNat = 9 ∨ c.toNat = 10 ∨ c.toNat = 13

/-- Parse a (non-negative) decimal integer; fails on empty digit run and on a
fractional part or exponent (outside the modelled fragment). -/
def parseJsonNat (s : List Char) : Option (Nat × List Char) :=
  if (s.takeWhile isDigitChar).isEmpty then none
  else match s.drop (s.takeWhile isDigitChar).length with
    | [] => some (digitsVal 0 (s.takeWhile isDigitChar), [])
    | c :: rest =>
        if c = '.' ∨ c = 'e' ∨ c = 'E' then none
        else some (digitsVal 0 (s.takeWhile isDigitChar), c :: rest)

mutual

/-- Parse one JSON value. `fuel` bounds the recursion depth and the number of
container members; `parseJson` passes enough for its whole input. -/
def parseJsonValue : Nat → List Char → Option (JValue × List Char)
  | 0, _ => none
  | fuel + 1, s =>
    match s.dropWhile isJsonWs with
    | [] => none
    | c :: rest =>
      if c = 'n' then
        if rest.take 3 = ['u', 'l', 'l'] then some (.jnull, rest.drop 3) else none
      else if c = 't' then
        if rest.take 3 = ['r', 'u', 'e'] then some (.jbool true, rest.drop 3)
        else none
      else if c = 'f' then
        if rest.take 4 = ['a', 'l', 's', 'e'] then some (.jbool false, rest.drop 4)
        else none
      else if c = '"' then
        (parseJsonStringBody rest).map fun p => (.jstr (String.mk p.1), p.2)
      else if c = '-' then
        (parseJsonNat rest).map fun p => (.jnum true p.1, p.2)
      else if isDigitChar c then
        (parseJsonNat (c :: rest)).map fun p => (.jnum false p.1, p.2)
      else if c = '[' then
        let r₁ := rest.dropWhile isJsonWs
        if r₁.headD ' ' = ']' then some (.jarr [], r₁.drop 1)
        else (parseJsonElems fuel rest).map fun p => (.jarr p.1, p.2)
      else if c = '{' then
        let r₁ := rest.dropWhile isJsonWs
        if r₁.headD ' ' = '}' then some (.jobj [], r₁.drop 1)
        else (parseJsonMembers fuel rest).map fun p => (.jobj p.1, p.2)
      else none

/-- Parse the elements of a non-empty JSON array, up to and including `]`. -/
def parseJsonElems : Nat → List Char → Option (List JValue × List Char)
  | 0, _ => none
  | fuel + 1, s =>
    match parseJsonValue fuel s with
    | none => none
    | some (v, r₁) =>
      let r₂ := r₁.dropWhile isJsonWs
      if r₂.headD ' ' = ',' then
        (parseJsonElems fuel (r₂.drop 1)).map fun p => (v :: p.1, p.2)
      else if r₂.headD ' ' = ']' then some ([v], r₂.drop 1)
      else none

/-- Parse the members of a non-empty JSON object, up to and including the
closing brace. -/
def parseJsonMembers : Nat → List Char → Option (List (String × JValue) × List Char)
  | 0, _ => none
  | fuel + 1, s =>
    match s.dropWhile isJsonWs with
    | c :: rest =>
      if c = '"' then
        match parseJsonStringBody rest with
        | some (key, r₁) =>
          let r₂ := r₁.dropWhile isJsonWs
          if r₂.headD ' ' = ':' then
            match parseJsonValue fuel (r₂.drop 1) with
            | some (v, r₃) =>
              let r₄ := r₃.dropWhile isJsonWs
              if r₄.headD ' ' = ',' then
                (parseJsonMembers fuel (r₄.drop 1)).map fun p =>
                  ((String.mk key, v) :: p.1, p.2)
              else if r₄.headD ' ' = '}' then some ([(String.mk key, v)], r₄.drop 1)
              else none
            | none => none
          else none
        | none => none
      else none
    | [] => none

end

/-- `JSON.parse`: parse one value and require only whitespace after it. -/
def parseJson (s : String) : Option JValue :=
  match parseJsonValue (s.length + 1) s.toList with
  | some (v, rest) => if (rest.dropWhile isJsonWs).isEmpty then some v else none
  | none => none

/-! ## SHA-256 (`crypto.createHash('sha256')`), FIPS 180-4 -/

/-- Truncate to 32 bits. -/
def w32 (n : Nat) : Nat := n % 4294967296

/-- Bitwise NOT within 32 bits. -/
def wnot (x : Nat) : Nat := w32 x ^^^ 4294967295

/-- Rotate a 32-bit word right by `n`. -/
def rotr32 (n x : Nat) : Nat := w32 (x >>> n ||| x <<< (32 - n))

/-- The 64 SHA-256 round constants. -/
def sha256K : List Nat :=
  [1116352408, 1899447441, 3049323471, 3921009573, 961987163,
   1508970993, 2453635748, 2870763221, 3624381080, 310598401,
   607225278, 1426881987, 1925078388, 2162078206, 2614888103,
   3248222580, 3835390401, 4022224774, 264347078, 604807628,
   770255983, 1249150122, 1555081692, 1996064986, 2554220882,
   2821834349, 2952996808, 3210313671, 3336571891, 3584528711,
   113926993, 338241895, 666307205, 773529912, 1294757372,
   1396182291, 1695183700, 1986661051, 2177026350, 2456956037,
   2730485921, 2820302411, 3259730800, 3345764771, 3516065817,
   3600352804, 4094571909, 275423344, 430227734, 506948616,
   659060556, 883997877, 958139571, 1322822218, 1537002063,
   1747873779, 1955562222, 2024104815, 2227730452, 2361852424,
   2428436474, 2756734187, 3204031479, 3329325298]

/-- Big-endian bytes of a 64-bit length. -/
def beBytes8 (n : Nat) : List Nat :=
  [n / 72057594037927936 % 256, n / 281474976710656 % 256,
   n / 1099511627776 % 256, n / 4294967296 % 256,
   n / 16777216 % 256, n / 65536 % 256, n / 256 % 256, n % 256]

/-- Big-endian bytes of a 32-bit word. -/
def beBytes4 (n : Nat) : List Nat :=
  [n / 16777216 % 256, n / 65536 % 256, n / 256 % 256, n % 256]

/-- Split into 64-byte chunks. -/
def chunks64 (l : List Nat) : List (List Nat) :=
  if h : l = [] then [] else l.take 64 :: chunks64 (l.drop 64)
  termination_by l.length
  decreasing_by
    simp only [List.length_drop]
    have : 0 < l.length := List.length_pos.mpr h
    omega

/-- The 64-entry message schedule of one chunk. -/
def sha256Schedule (chunk : List Nat) : Array Nat :=
  let init : Array Nat := (Array.range 16).map fun i =>
    chunk.getD (4 * i) 0 * 16777216 + chunk.getD (4 * i + 1) 0 * 65536 +
    chunk.getD (4 * i + 2) 0 * 256 + chunk.getD (4 * i + 3) 0
  (List.range 48).foldl (fun ws i =>
    let j := i + 16
    let w15 := ws.getD (j - 15) 0
    let w2 := ws.getD (j - 2) 0
    let s0 := rotr32 7 w15 ^^^ rotr32 18 w15 ^^^ (w15 >>> 3)
    let s1 := rotr32 17 w2 ^^^ rotr32 19 w2 ^^^ (w2 >>> 10)
    ws.push (w32 (ws.getD (j - 16) 0 + s0 + ws.getD (j - 7) 0 + s1))) init

/-- One compression round. -/
def sha256Round (st : Nat × Nat × Nat × Nat × Nat × Nat × Nat × Nat)
    (kw : Nat × Nat) : Nat × Nat × Nat × Nat × Nat × Nat × Nat × Nat :=
  let (a, b, c, d, e, f, g, h) := st
  let (k, w) := kw
  let s1 := rotr32 6 e ^^^ rotr32 11 e ^^^ rotr32 25 e
  let ch := (e &&& f) ^^^ (wnot e &&& g)
  let t1 := w32 (h + s1 + ch + k + w)
  let s0 := rotr32 2 a ^^^ rotr32 13 a ^^^ rotr32 22 a
  let maj := (a &&& b) ^^^ (a &&& c) ^^^ (b &&& c)
  let t2 := w32 (s0 + maj)
  (w32 (t1 + t2), a, b, c, w32 (d + t1), e, f, g)

/-- Compress one 64-byte chunk into the hash state. -/
def sha256Compress (hs : List Nat) (chunk : List Nat) : List Nat :=
  let ws := sha256Schedule chunk
  let st0 := (hs.getD 0 0, hs.getD 1 0, hs.getD 2 0, hs.getD 3 0,
              hs.getD 4 0, hs.getD 5 0, hs.getD 6 0, hs.getD 7 0)
  let (a, b, c, d, e, f, g, h) := (sha256K.zip ws.toList).foldl sha256Round st0
  [w32 (hs.getD 0 0 + a), w32 (hs.getD 1 0 + b), w32 (hs.getD 2 0 + c),
   w32 (hs.getD 3 0 + d), w32 (hs.getD 4 0 + e), w32 (hs.getD 5 0 + f),
   w32 (hs.getD 6 0 + g), w32 (hs.getD 7 0 + h)]

/-- SHA-256 digest of a byte list. -/
def sha256 (msg : List Nat) : List Nat :=
  let len := msg.length
  let padded := msg ++ 128 :: List.replicate ((64 - (len + 9) % 64) % 64) 0 ++
    beBytes8 (len * 8)
  let h0 : List Nat :=
    [1779033703, 3144134277, 1013904242, 2773480762,
     1359893119, 2600822924, 528734635, 1541459225]
  ((chunks64 padded).foldl sha256Compress h0).map beBytes4 |>.flatten

/-! ## `src/utils/pkce-verifier.ts` -/

/-- `crypto.createHash('sha256').update(codeVerifier).digest()`. -/
def sha256String (s : String) : List Nat := sha256 (utf8Encode s)

/-- `verifyPKCE(codeVerifier, codeChallenge, method)`. The `method` value
is a string at runtime (cast from the request); unknown methods fail. -/
def verifyPKCE (codeVerifier codeChallenge method : String) : Bool :=
  if codeVerifier = "" ∨ codeChallenge = "" then false
  else if method = "plain" then codeVerifier = codeChallenge
  else if method = "S256" then
    base64UrlEncode (sha256String codeVerifier) = codeChallenge
  else false

/-- `generateCodeChallenge(codeVerifier, method)`. -/
def generateCodeChallenge (codeVerifier method : String) : String :=
  if method = "plain" then codeVerifier
  else base64UrlEncode (sha256String codeVerifier)

/-- A character of the RFC 7636 verifier alphabet:
`[A-Za-z0-9\-._~]`. -/
def isPkceChar (c : Char) : Bool :=
  (65 ≤ c.toNat ∧ c.toNat ≤ 90) ∨ (97 ≤ c.toNat ∧ c.toNat ≤ 122) ∨
  (48 ≤ c.toNat ∧ c.toNat ≤ 57) ∨ c = '-' ∨ c = '.' ∨ c = '_' ∨ c = '~'

/-- `isValidCodeVerifier(codeVerifier)`: 43–128 characters of the RFC 7636
alphabet. -/
def isValidCodeVerifier (codeVerifier : String) : Bool :=
  if codeVerifier = "" then false
  else if codeVerifier.length < 43 ∨ 128 < codeVerifier.length then false
  else codeVerifier.toList.all isPkceChar

/-! ## `src/utils/token-generator.ts`: QB-state encoding -/

/-- `JSON.stringify({claudeState, sessionId, timestamp})` (no spaces, keys in
insertion order, as V8 produces). -/
def stateJsonChars (claudeState sessionId : String) (timestamp : Nat) : List Char :=
  '{' :: (jsonQuote "claudeState" ++ ':' :: jsonQuote claudeState ++
    ',' :: jsonQuote "sessionId" ++ ':' :: jsonQuote sessionId ++
    ',' :: jsonQuote "timestamp" ++ ':' :: decimalRepr timestamp) ++ ['}']

/-- `encodeQBState({claudeState, sessionId, timestamp})`. The `timestamp`
field is optional and `data.timestamp || Date.now()` replaces a missing or
zero (falsy) timestamp with the current time. -/
def encodeQBState (claudeState sessionId : String) (timestamp : Option Nat)
    (now : Nat) : String :=
  let ts : Nat :=
    match timestamp with
    | some t => if t = 0 then now else t
    | none => now
  base64UrlEncode (utf8Encode (String.mk (stateJsonChars claudeState sessionId ts)))

/-- The record returned by `decodeQBState`. -/
structure QBStateData where
  claudeState : String
  sessionId : String
  timestamp : Nat
  deriving Repr, DecidableEq

/-- JS truthiness of a JSON value (for `!data.claudeState` checks). -/
def jTruthy : Option JValue → Bool
  | none => false
  | some .jnull => false
  | some (.jbool b) => b
  | some (.jnum _ n) => n ≠ 0
  | some (.jstr s) => s ≠ ""
  | some (.jarr _) => true
  | some (.jobj _) => true

/-- First binding of `k` among parsed JSON object members. -/
def jLookup (fields : List (String × JValue)) (k : String) : Option JValue :=
  match fields with
  | [] => none
  | (k₀, v₀) :: rest => if k₀ = k then some v₀ else jLookup rest k

/-- `decodeQBState(qbState)`: base64url-decode, UTF-8 decode, `JSON.parse`,
require truthy `claudeState` and `sessionId`, and default a falsy
`timestamp` to `Date.now()`. Returns `none` where the source throws. -/
def decodeQBState (qbState : String) (now : Nat) : Option QBStateData := do
  let bytes ← base64UrlDecode qbState
  let str ← utf8Decode bytes
  let v ← parseJson str
  match v with
  | .jobj fields =>
      match jLookup fields "claudeState", jLookup fields "sessionId" with
      | some (.jstr cs), some (.jstr sid) =>
          if cs = "" ∨ sid = "" then none
          else
            let ts : Nat :=
              match jLookup fields "timestamp" with
              | some (.jnum false n) => if n = 0 then now else n
              | _ => now
            some ⟨cs, sid, ts⟩
      | _, _ => none
  | _ => none

/-! ## Storage layer

Each `storage/*.ts` class holds a JS `Map`; handlers pass `Date.now()`
explicitly. Persistence (`initialize`/`save`, S3 or disk) only reloads the
same map and is not modelled. -/

/-- `AuthorizationCode` of `auth-code-storage.ts`. -/
structure AuthorizationCode where
  sessionId : String
  claudeState : String
  timestamp : Nat
  expiresAt : Nat
  used : Bool
  deriving Repr, DecidableEq

/-- `AuthCodeStorage.storeAuthCode(code, data)`: 10-minute TTL, unused. -/
def AuthCodeStorage.storeAuthCode (m : JsMap AuthorizationCode) (code : String)
    (sessionId claudeState : String) (now : Nat) : JsMap AuthorizationCode :=
  m.set code ⟨sessionId, claudeState, now, now + 600000, false⟩

/-- `AuthCodeStorage.getAuthCode(code)`: `undefined` if missing, already used
or expired; an expired code is deleted on lookup. -/
def AuthCodeStorage.getAuthCode (m : JsMap AuthorizationCode) (code : String)
    (now : Nat) : Option AuthorizationCode × JsMap AuthorizationCode :=
  match m.get code with
  | none => (none, m)
  | some authCode =>
      if authCode.used then (none, m)
      else if authCode.expiresAt < now then (none, m.del code)
      else (some authCode, m)

/-- `AuthCodeStorage.markAsUsed(code)`. -/
def AuthCodeStorage.markAsUsed (m : JsMap AuthorizationCode) (code : String) :
    JsMap AuthorizationCode :=
  m.update code fun a => { a with used := true }

/-- `PKCEChallenge` of `pkce-storage.ts`; the method is kept as the string
received in the request (`'S256' | 'plain'` after validation). -/
structure PKCEChallenge where
  codeChallenge : String
  codeChallengeMethod : String
  redirectUri : String
  clientId : String
  timestamp : Nat
  deriving Repr, DecidableEq

/-- `PKCEStorage.storePKCE(state, challenge)`. -/
def PKCEStorage.storePKCE (m : JsMap PKCEChallenge) (state : String)
    (codeChallenge codeChallengeMethod redirectUri clientId : String)
    (now : Nat) : JsMap PKCEChallenge :=
  m.set state ⟨codeChallenge, codeChallengeMethod, redirectUri, clientId, now⟩

/-- `PKCEStorage.getPKCE(state)`: 10-minute TTL, expired entries deleted on
lookup. -/
def PKCEStorage.getPKCE (m : JsMap PKCEChallenge) (state : String) (now : Nat) :
    Option PKCEChallenge × JsMap PKCEChallenge :=
  match m.get state with
  | none => (none, m)
  | some challenge =>
      if challenge.timestamp + 600000 < now then (none, m.del state)
      else (some challenge, m)

/-- `PKCEStorage.deletePKCE(state)`. -/
def PKCEStorage.deletePKCE (m : JsMap PKCEChallenge) (state : String) :
    JsMap PKCEChallenge :=
  m.del state

/-- `QuickBooksOAuthState` of `qb-oauth-state-storage.ts`. -/
structure QuickBooksOAuthState where
  claudeState : String
  sessionId : String
  timestamp : Nat
  deriving Repr, DecidableEq

/-- `QBOAuthStateStorage.storeQBState(qbState, data)`. -/
def QBOAuthStateStorage.storeQBState (m : JsMap QuickBooksOAuthState)
    (qbState claudeState sessionId : String) (now : Nat) :
    JsMap QuickBooksOAuthState :=
  m.set qbState ⟨claudeState, sessionId, now⟩

/-- `QBOAuthStateStorage.getQBState(qbState)`: 10-minute TTL. -/
def QBOAuthStateStorage.getQBState (m : JsMap QuickBooksOAuthState)
    (qbState : String) (now : Nat) :
    Option QuickBooksOAuthState × JsMap QuickBooksOAuthState :=
  match m.get qbState with
  | none => (none, m)
  | some st =>
      if st.timestamp + 600000 < now then (none, m.del qbState)
      else (some st, m)

/-- `QBOAuthStateStorage.deleteQBState(qbState)`. -/
def QBOAuthStateStorage.deleteQBState (m : JsMap QuickBooksOAuthState)
    (qbState : String) : JsMap QuickBooksOAuthState :=
  m.del qbState

/-- `MCPTokenSession` of `mcp-token-storage.ts` (the optional `userId` /
refresh-token fields are never set on the verified paths and are omitted). -/
structure MCPTokenSession where
  sessionId : String
  issuedAt : Nat
  expiresAt : Nat
  deriving Repr, DecidableEq

/-- `MCPTokenStorage.storeToken(token, {sessionId})`: 1-hour expiry. -/
def MCPTokenStorage.storeToken (m : JsMap MCPTokenSession) (token : String)
    (sessionId : String) (now : Nat) : JsMap MCPTokenSession :=
  m.set token ⟨sessionId, now, now + 3600000⟩

/-- `MCPTokenStorage.getToken(token)`: `undefined` if missing or expired;
an expired token is deleted on lookup. -/
def MCPTokenStorage.getToken (m : JsMap MCPTokenSession) (token : String)
    (now : Nat) : Option MCPTokenSession × JsMap MCPTokenSession :=
  match m.get token with
  | none => (none, m)
  | some session =>
      if session.expiresAt < now then (none, m.del token)
      else (some session, m)

/-- `QuickBooksSession` of `quickbooks-session-storage.ts` (optional `userId`
omitted: the verified paths store it as `undefined`). -/
structure QuickBooksSession where
  qbAccessToken : String
  qbRefreshToken : String
  qbTokenExpiresAt : Nat
  realmId : String
  createdAt : Nat
  lastUsedAt : Nat
  deriving Repr, DecidableEq

/-- `QuickBooksSessionStorage.storeSession(sessionId, session)`. -/
def QuickBooksSessionStorage.storeSession (m : JsMap QuickBooksSession)
    (sessionId : String) (qbAccessToken qbRefreshToken : String)
    (qbTokenExpiresAt : Nat) (realmId : String) (createdAt now : Nat) :
    JsMap QuickBooksSession :=
  m.set sessionId ⟨qbAccessToken, qbRefreshToken, qbTokenExpiresAt, realmId,
    createdAt, now⟩

/-- `QuickBooksSessionStorage.getSession(sessionId)`: returns the session and
bumps its `lastUsedAt` in place. -/
def QuickBooksSessionStorage.getSession (m : JsMap QuickBooksSession)
    (sessionId : String) (now : Nat) :
    Option QuickBooksSession × JsMap QuickBooksSession :=
  match m.get sessionId with
  | none => (none, m)
  | some session =>
      (some { session with lastUsedAt := now },
       m.update sessionId fun s => { s with lastUsedAt := now })

/-- `QuickBooksSessionStorage.updateTokens(sessionId, tokens)`: no effect when
the session is missing. -/
def QuickBooksSessionStorage.updateTokens (m : JsMap QuickBooksSession)
    (sessionId : String) (qbAccessToken qbRefreshToken : String)
    (qbTokenExpiresAt now : Nat) : JsMap QuickBooksSession :=
  m.update sessionId fun s =>
    { s with qbAccessToken := qbAccessToken, qbRefreshToken := qbRefreshToken,
             qbTokenExpiresAt := qbTokenExpiresAt, lastUsedAt := now }

/-- `QuickBooksSessionStorage.getAllSessions()`: `[sessionId, session]` pairs
in insertion order. -/
def QuickBooksSessionStorage.getAllSessions (m : JsMap QuickBooksSession) :
    List (String × QuickBooksSession) :=
  m

/-- `QuickBooksSessionStorage.deleteSession(sessionId)`. -/
def QuickBooksSessionStorage.deleteSession (m : JsMap QuickBooksSession)
    (sessionId : String) : JsMap QuickBooksSession :=
  m.del sessionId

/-- Modelled from the spec: `getActiveCompanySession()` is called by the
`/authorize` handler but its implementation is not among the provided
sources (the project progress notes record it being added to
`quickbooks-session-storage.ts`). Per the spec, it returns a company session
whose `tokenExpiresAt` is at least the 30-minute safety margin in the future,
here the first such entry in insertion order, with its session id. -/
def QuickBooksSessionStorage.getActiveCompanySession
    (m : JsMap QuickBooksSession) (now : Nat) :
    Option (String × QuickBooksSession) :=
  match m with
  | [] => none
  | (sid, s) :: rest =>
      if now + 1800000 ≤ s.qbTokenExpiresAt then some (sid, s)
      else QuickBooksSessionStorage.getActiveCompanySession rest now

/-- The mutable server-side stores touched by the OAuth handlers. -/
structure ServerState where
  pkce : JsMap PKCEChallenge
  qbStates : JsMap QuickBooksOAuthState
  qbSessions : JsMap QuickBooksSession
  authCodes : JsMap AuthorizationCode
  mcpTokens : JsMap MCPTokenSession
  deriving Repr, DecidableEq

/-! ## `/token` endpoint (`src/endpoints/token-endpoint.ts`) -/

/-- Body parameters of a `POST /token` request. -/
structure TokenRequest where
  grant_type : Option String
  code : Option String
  code_verifier : Option String
  client_id : Option String
  deriving Repr, DecidableEq

/-- Outcome of `/token`: an OAuth error object (status, `error` code) or the
token response. -/
inductive TokenResult where
  | err (status : Nat) (error : String)
  | ok (access_token : String) (token_type : String) (expires_in : Nat)
  deriving Repr, DecidableEq

/-- `handleTokenEndpoint`: validate `grant_type`, `code`, `code_verifier`;
look up the authorization code (missing/used/expired → `invalid_grant`); mark
it used; look up and verify the PKCE challenge; check `client_id`; then mint
and store an MCP token. `freshMcpToken` stands for `generateMCPToken()`. -/
def handleTokenEndpoint (req : TokenRequest) (st : ServerState) (now : Nat)
    (freshMcpToken : String) : TokenResult × ServerState :=
  if ¬ truthy req.grant_type ∨ req.grant_type ≠ some "authorization_code" then
    (.err 400 "unsupported_grant_type", st)
  else if ¬ truthy req.code then
    (.err 400 "invalid_request", st)
  else if ¬ truthy req.code_verifier then
    (.err 400 "invalid_request", st)
  else if ¬ isValidCodeVerifier (req.code_verifier.getD "") then
    (.err 400 "invalid_request", st)
  else
    let code := req.code.getD ""
    match AuthCodeStorage.getAuthCode st.authCodes code now with
    | (none, authCodes₁) => (.err 400 "invalid_grant", { st with authCodes := authCodes₁ })
    | (some authCode, authCodes₁) =>
      let authCodes₂ := AuthCodeStorage.markAsUsed authCodes₁ code
      match PKCEStorage.getPKCE st.pkce authCode.claudeState now with
      | (none, pkce₁) =>
          (.err 400 "invalid_grant", { st with authCodes := authCodes₂, pkce := pkce₁ })
      | (some challenge, pkce₁) =>
        if ¬ verifyPKCE (req.code_verifier.getD "") challenge.codeChallenge
            challenge.codeChallengeMethod then
          (.err 400 "invalid_grant", { st with authCodes := authCodes₂, pkce := pkce₁ })
        else if req.client_id ≠ some challenge.clientId then
          (.err 400 "invalid_grant", { st with authCodes := authCodes₂, pkce := pkce₁ })
        else
          let pkce₂ := PKCEStorage.deletePKCE pkce₁ authCode.claudeState
          let mcp₁ := MCPTokenStorage.storeToken st.mcpTokens freshMcpToken
            authCode.sessionId now
          (.ok freshMcpToken "Bearer" 3600,
           { st with authCodes := authCodes₂, pkce := pkce₂, mcpTokens := mcp₁ })

/-! ## `/mcp` authentication gate (`index-http.ts`) -/

/-- Outcome of the bearer-token gate of `app.post('/mcp')`. -/
inductive GateResult where
  | missingAuth
  | invalidToken
  | sessionNotFound
  | proceed (sessionId : String)
  deriving Repr, DecidableEq

/-- The authentication prefix of `app.post('/mcp')`: resolve the bearer token
via the MCP token store (missing/expired → 401), then the QuickBooks session
(missing → 403); on success the request proceeds with that session id.
`authToken` is the already-extracted bearer token, if any. -/
def mcpGate (authToken : Option String) (st : ServerState) (now : Nat) :
    GateResult × ServerState :=
  match authToken with
  | none => (.missingAuth, st)
  | some tok =>
    match MCPTokenStorage.getToken st.mcpTokens tok now with
    | (none, mcp₁) => (.invalidToken, { st with mcpTokens := mcp₁ })
    | (some session, mcp₁) =>
        if session.expiresAt < now then (.invalidToken, { st with mcpTokens := mcp₁ })
        else
          match QuickBooksSessionStorage.getSession st.qbSessions session.sessionId now with
          | (none, qb₁) =>
              (.sessionNotFound, { st with mcpTokens := mcp₁, qbSessions := qb₁ })
          | (some _, qb₁) =>
              (.proceed session.sessionId, { st with mcpTokens := mcp₁, qbSessions := qb₁ })

/-! ## URL hostname (`new URL(str).hostname`, WHATWG basic parsing) -/

/-- Lowercase an ASCII letter. -/
def asciiLower (c : Char) : Char :=
  if 65 ≤ c.toNat ∧ c.toNat ≤ 90 then Char.ofNat (c.toNat + 32) else c

/-- Scheme characters after the first (letter / digit / `+` / `-` / `.`). -/
def isSchemeChar (c : Char) : Bool :=
  (65 ≤ c.toNat ∧ c.toNat ≤ 90) ∨ (97 ≤ c.toNat ∧ c.toNat ≤ 122) ∨
  isDigitChar c ∨ c = '+' ∨ c = '-' ∨ c = '.'

/-- ASCII letter. -/
def isAsciiLetter (c : Char) : Bool :=
  (65 ≤ c.toNat ∧ c.toNat ≤ 90) ∨ (97 ≤ c.toNat ∧ c.toNat ≤ 122)

/-- Code points that end the authority component. -/
def endsAuthority (c : Char) : Bool := c = '/' ∨ c = '?' ∨ c = '#'

/-- Forbidden host code points (WHATWG). -/
def badHostChar (c : Char) : Bool :=
  c.toNat = 0 ∨ c.toNat = 9 ∨ c.toNat = 10 ∨ c.toNat = 13 ∨ c = ' ' ∨
  c = '#' ∨ c = '/' ∨ c = ':' ∨ c = '<' ∨ c = '>' ∨ c = '?' ∨ c = '@' ∨
  c = '[' ∨ c = '\\' ∨ c = ']' ∨ c = '^' ∨ c = '|'

/-- The special schemes of the WHATWG URL standard that require a host. -/
def isSpecialScheme (s : List Char) : Bool :=
  let l := String.mk (s.map asciiLower)
  l = "http" ∨ l = "https" ∨ l = "ws" ∨ l = "wss" ∨ l = "ftp"

/-- Drop everything up to and including the last `@` (userinfo). -/
def afterLastAt (cs : List Char) : List Char :=
  if cs.contains '@' then (cs.reverse.takeWhile fun c => c ≠ '@').reverse else cs

/-- `new URL(s).hostname`: `none` models a `TypeError` from the constructor.
Covers `scheme://[userinfo@]host[:port][/path?query#frag]`; a special scheme
also accepts missing or extra slashes before the authority; a non-special
scheme without `//` has hostname `""`. -/
def urlHostname (s : String) : Option String :=
  let cs := s.toList
  let scheme := cs.takeWhile fun c => c ≠ ':'
  match cs.drop scheme.length with
  | ':' :: afterColon =>
      if scheme.isEmpty then none
      else if ¬ (isAsciiLetter (scheme.headD ' ') ∧ scheme.all isSchemeChar) then none
      else
        let special := isSpecialScheme scheme
        let hasSlashes := afterColon.take 2 = ['/', '/']
        if special ∨ hasSlashes then
          let afterSlashes :=
            if special then afterColon.dropWhile fun c => c = '/' ∨ c = '\\'
            else afterColon.drop 2
          let authority := afterSlashes.takeWhile fun c => ¬ endsAuthority c
          let hostPort := afterLastAt authority
          let host := hostPort.takeWhile fun c => c ≠ ':'
          let port := (hostPort.drop host.length).drop 1
          if host.isEmpty then none
          else if host.any badHostChar then none
          else if ¬ port.all isDigitChar then none
          else some (String.mk (host.map asciiLower))
        else some ""
  | _ => none

/-! ## `/authorize` endpoint (`src/endpoints/register-endpoint.ts`) -/

/-- Query parameters of a `GET /authorize` request. -/
structure AuthorizeRequest where
  response_type : Option String
  client_id : Option String
  redirect_uri : Option String
  code_challenge : Option String
  code_challenge_method : Option String
  state : Option String
  scope : Option String
  deriving Repr, DecidableEq

/-- `validateAuthorizeParams`: the first failing check names the offending
field in its message. -/
def validateAuthorizeParams (p : AuthorizeRequest) : Option String :=
  if ¬ truthy p.response_type then
    some "Missing required parameter: response_type"
  else if p.response_type ≠ some "code" then
    some ("Invalid response_type: " ++ p.response_type.getD "" ++ " (must be \"code\")")
  else if ¬ truthy p.client_id then
    some "Missing required parameter: client_id"
  else if ¬ truthy p.redirect_uri then
    some "Missing required parameter: redirect_uri"
  else if ¬ truthy p.code_challenge then
    some "Missing required parameter: code_challenge (PKCE is required)"
  else if ¬ truthy p.code_challenge_method then
    some "Missing required parameter: code_challenge_method"
  else if p.code_challenge_method ≠ some "S256" ∧ p.code_challenge_method ≠ some "plain" then
    some ("Invalid code_challenge_method: " ++ p.code_challenge_method.getD "" ++
      " (must be \"S256\" or \"plain\")")
  else if ¬ truthy p.state then
    some "Missing required parameter: state"
  else none

/-- `application/x-www-form-urlencoded` encoding of one character
(`URLSearchParams.toString()`). -/
def formUrlEncodeChar (c : Char) : List Char :=
  if (65 ≤ c.toNat ∧ c.toNat ≤ 90) ∨ (97 ≤ c.toNat ∧ c.toNat ≤ 122) ∨
      isDigitChar c ∨ c = '*' ∨ c = '-' ∨ c = '.' ∨ c = '_' then [c]
  else if c = ' ' then ['+']
  else (utf8EncodeChar c).flatMap fun b =>
    ['%', (if b / 16 < 10 then Char.ofNat (48 + b / 16) else Char.ofNat (55 + b / 16)),
     (if b % 16 < 10 then Char.ofNat (48 + b % 16) else Char.ofNat (55 + b % 16))]

/-- `URLSearchParams` encoding of a string. -/
def formUrlEncode (s : String) : String :=
  String.mk ((s.toList.map formUrlEncodeChar).flatten)

/-- `buildQuickBooksAuthUrl` (both environments use the same endpoint). -/
def buildQuickBooksAuthUrl (clientId redirectUri state environment : String) : String :=
  let authEndpoint :=
    if environment = "production" then "https://appcenter.intuit.com/connect/oauth2"
    else "https://appcenter.intuit.com/connect/oauth2"
  authEndpoint ++ "?client_id=" ++ formUrlEncode clientId ++
    "&redirect_uri=" ++ formUrlEncode redirectUri ++
    "&scope=" ++ formUrlEncode "com.intuit.quickbooks.accounting" ++
    "&response_type=code&state=" ++ formUrlEncode state

/-- Outcome of `GET /authorize`. -/
inductive AuthorizeResult where
  | metadata
  | badRequest (msg : String)
  | invalidRedirect (msg : String)
  | configError
  | redirectClaude (url : String)
  | redirectQB (url : String)
  deriving Repr, DecidableEq

/-- Environment and nondeterministic inputs of one `/authorize` request:
`Date.now()`, the generated session id and authorization code, and the
QuickBooks env configuration. -/
structure AuthorizeOracle where
  now : Nat
  freshSessionId : String
  freshAuthCode : String
  qbClientId : Option String
  qbRedirectUri : Option String
  qbEnvironment : String
  deriving Repr, DecidableEq

/-- `handleAuthorizeEndpoint` (the current version, with OAuth-metadata
discovery and the multi-user shared-connection fast path). The
`sessionLockManager.acquireLock('qb-company-auth')` critical section is the
shared-path decision; requests are embedded as executing it atomically. -/
def handleAuthorizeEndpoint (req : AuthorizeRequest) (st : ServerState)
    (o : AuthorizeOracle) : AuthorizeResult × ServerState :=
  match validateAuthorizeParams req with
  | some err =>
      if ¬ truthy req.response_type ∧ ¬ truthy req.client_id ∧
          ¬ truthy req.redirect_uri ∧ ¬ truthy req.code_challenge ∧
          ¬ truthy req.state then
        (.metadata, st)
      else (.badRequest err, st)
  | none =>
    let redirectUriStr := req.redirect_uri.getD ""
    match urlHostname redirectUriStr with
    | none => (.invalidRedirect "redirect_uri must be a valid URL.", st)
    | some host =>
      if ¬ (["claude.ai", "localhost", "127.0.0.1"].contains host) then
        (.invalidRedirect
          "redirect_uri must be a Claude URL (claude.ai) or localhost for testing.", st)
      else
        let stateParam := req.state.getD ""
        let pkce₁ := PKCEStorage.storePKCE st.pkce stateParam
          (req.code_challenge.getD "") (req.code_challenge_method.getD "")
          redirectUriStr (req.client_id.getD "") o.now
        let st₁ := { st with pkce := pkce₁ }
        match QuickBooksSessionStorage.getActiveCompanySession st₁.qbSessions o.now with
        | some (_, activeSession) =>
            let qbSessions₁ := QuickBooksSessionStorage.storeSession st₁.qbSessions
              o.freshSessionId activeSession.qbAccessToken activeSession.qbRefreshToken
              activeSession.qbTokenExpiresAt activeSession.realmId o.now o.now
            let authCodes₁ := AuthCodeStorage.storeAuthCode st₁.authCodes
              o.freshAuthCode o.freshSessionId stateParam o.now
            (.redirectClaude (redirectUriStr ++ "?code=" ++ o.freshAuthCode ++
                "&state=" ++ stateParam),
             { st₁ with qbSessions := qbSessions₁, authCodes := authCodes₁ })
        | none =>
            let sessionId := o.freshSessionId
            let qbState := encodeQBState stateParam sessionId none o.now
            let qbStates₁ := QBOAuthStateStorage.storeQBState st₁.qbStates qbState
              stateParam sessionId o.now
            let st₂ := { st₁ with qbStates := qbStates₁ }
            if ¬ truthy o.qbClientId ∨ ¬ truthy o.qbRedirectUri then
              (.configError, st₂)
            else
              (.redirectQB (buildQuickBooksAuthUrl (o.qbClientId.getD "")
                (o.qbRedirectUri.getD "") qbState o.qbEnvironment), st₂)

/-! ## `/oauth/callback` (`index-http.ts`) -/

/-- Query parameters of the QuickBooks callback. -/
structure CallbackRequest where
  code : Option String
  realmId : Option String
  state : Option String
  error : Option String
  deriving Repr, DecidableEq

/-- Token payload of a successful `oauthClient.createToken` exchange. -/
structure QBTokens where
  access_token : String
  refresh_token : String
  expires_in : Nat
  deriving Repr, DecidableEq

/-- Outcome of the callback. -/
inductive CallbackResult where
  | errorPage (status : Nat) (msg : String)
  | redirectClaude (url : String)
  deriving Repr, DecidableEq

/-- `Date.now()`, the third-party exchange outcome, the generated code and
the `CLAUDE_REDIRECT_URI` env value for one callback request. -/
structure CallbackOracle where
  now : Nat
  exchangeResult : Option QBTokens
  freshAuthCode : String
  claudeRedirectUri : Option String
  deriving Repr, DecidableEq

/-- `app.get('/oauth/callback')`: provider error → 400; missing
code/realmId/state → 400; decode the inner state with `decodeQBState`
(decode failure → 400); exchange the QuickBooks code (failure → 500); store
the company session under the decoded session id; mint and store an
authorization code; delete the state-bridge entry; redirect to
`CLAUDE_REDIRECT_URI` with `{code, state}`. The state bridge is only
written/deleted here, never consulted. -/
def handleOAuthCallback (req : CallbackRequest) (st : ServerState)
    (o : CallbackOracle) : CallbackResult × ServerState :=
  if truthy req.error then
    (.errorPage 400 ("Authorization Failed. Error: " ++ req.error.getD ""), st)
  else if ¬ truthy req.code ∨ ¬ truthy req.realmId ∨ ¬ truthy req.state then
    (.errorPage 400 "Missing required parameters (code, realmId, or state)", st)
  else
    match decodeQBState (req.state.getD "") o.now with
    | none => (.errorPage 400 "Could not decode OAuth state parameter.", st)
    | some decoded =>
      match o.exchangeResult with
      | none =>
          (.errorPage 500 "Failed to exchange authorization code for QuickBooks tokens.", st)
      | some tokens =>
        let qbSessions₁ := QuickBooksSessionStorage.storeSession st.qbSessions
          decoded.sessionId tokens.access_token tokens.refresh_token
          (o.now + tokens.expires_in * 1000) (req.realmId.getD "") o.now o.now
        let authCodes₁ := AuthCodeStorage.storeAuthCode st.authCodes
          o.freshAuthCode decoded.sessionId decoded.claudeState o.now
        let qbStates₁ := QBOAuthStateStorage.deleteQBState st.qbStates (req.state.getD "")
        let base :=
          if truthy o.claudeRedirectUri then o.claudeRedirectUri.getD ""
          else "https://claude.ai/api/mcp/auth_callback"
        (.redirectClaude (base ++ "?code=" ++ o.freshAuthCode ++ "&state=" ++
            decoded.claudeState),
         { st with qbSessions := qbSessions₁, authCodes := authCodes₁,
                   qbStates := qbStates₁ })

/-! ## Token refresh (`token-refresh-service.ts`), sequential denotation -/

/-- Token payload of a successful `oauthClient.refreshUsingToken` response. -/
structure RefreshResponse where
  access_token : String
  refresh_token : String
  expires_in : Nat
  deriving Repr, DecidableEq

/-- `TokenRefreshService.refreshQuickBooksToken(sessionId)` given a network
response `resp` (a rejected network call raises before any store write and
leaves the sessions untouched): read the session, then fan the new tokens out
to every session sharing its `realmId`. -/
def refreshQuickBooksToken (sessions : JsMap QuickBooksSession)
    (sessionId : String) (resp : RefreshResponse) (now : Nat) :
    Except String (JsMap QuickBooksSession) :=
  match QuickBooksSessionStorage.getSession sessions sessionId now with
  | (none, _) => .error "QuickBooks session not found"
  | (some qbSession, m₁) =>
      if resp.access_token = "" ∨ resp.refresh_token = "" then
        .error "Missing tokens in refresh response"
      else
        let sessionsForThisCompany :=
          (QuickBooksSessionStorage.getAllSessions m₁).filter fun p =>
            p.2.realmId = qbSession.realmId
        let expiresAt := now + resp.expires_in * 1000
        .ok (sessionsForThisCompany.foldl (fun acc p =>
          QuickBooksSessionStorage.updateTokens acc p.1 resp.access_token
            resp.refresh_token expiresAt now) m₁)

/-! ## Token refresh concurrency model

`refreshQuickBooksTokenIfNeeded` coordinates concurrent callers through the
module-level `refreshMutexes : Map<realmId, Promise>`. The interleaving
semantics below splits each caller and each `refreshQuickBooksToken` promise
at its `await` points: the code between two suspension points executes
atomically (Node's single-threaded event loop), and a scheduler label picks
which suspended continuation runs next. A label that is not enabled (e.g.
resuming a caller whose awaited promise is still pending) leaves the state
unchanged. -/

/-- Result of one `refreshQuickBooksTokenIfNeeded` caller. -/
inductive TaskOutcome where
  | returned (b : Bool)
  | threw
  deriving Repr, DecidableEq

/-- Program counter of one `refreshQuickBooksTokenIfNeeded(sessionId)` caller,
split at its `await` points. -/
inductive TaskPC where
  | start
  | check
  | waiting (realm : String) (rid : Nat)
  | awaitOwn (realm : String) (rid : Nat)
  | done (r : TaskOutcome)
  deriving Repr, DecidableEq

/-- One caller of `refreshQuickBooksTokenIfNeeded`. -/
structure CallerTask where
  sessionId : String
  pc : TaskPC
  deriving Repr, DecidableEq

/-- The new token values computed after a refresh response (`tokenUpdate`). -/
structure TokenUpdate where
  qbAccessToken : String
  qbRefreshToken : String
  qbTokenExpiresAt : Nat
  deriving Repr, DecidableEq

/-- Program counter of one `refreshQuickBooksToken` promise, split at its
`await` points. -/
inductive RefreshPC where
  | rStart
  | rRead
  | rInFlight (realm : String) (refreshToken : String)
  | rFanOut (pending : List String) (upd : TokenUpdate)
  | rResolved
  | rRejected
  deriving Repr, DecidableEq

/-- One `refreshQuickBooksToken` promise; `rid` is its index. -/
structure RefreshTask where
  sessionId : String
  rpc : RefreshPC
  deriving Repr, DecidableEq

/-- Shared state: the session store, the `refreshMutexes` map (promises by
index), the callers and the refresh promises. `Date.now()` is frozen to `now`
(the executions considered are much shorter than any TTL). -/
structure RefreshSysState where
  sessions : JsMap QuickBooksSession
  mutexes : JsMap Nat
  tasks : List CallerTask
  refreshes : List RefreshTask
  now : Nat
  deriving Repr, DecidableEq

/-- Has promise `rid` settled, and how? -/
def refreshSettled (σ : RefreshSysState) (rid : Nat) : Option Bool :=
  match σ.refreshes[rid]? with
  | some r =>
      match r.rpc with
      | .rResolved => some true
      | .rRejected => some false
      | _ => none
  | none => none

/-- Lines 80–81 of the service: `refreshQuickBooksToken(sessionId)` is invoked
(running synchronously up to its first `await`), its promise is stored in
`refreshMutexes` (overwriting any existing entry for the realm), and the
caller suspends awaiting it. -/
def spawnRefresh (σ : RefreshSysState) (tid : Nat) (sessionId realm : String) :
    RefreshSysState :=
  let rid := σ.refreshes.length
  { σ with
    refreshes := σ.refreshes ++ [⟨sessionId, .rStart⟩],
    mutexes := σ.mutexes.set realm rid,
    tasks := σ.tasks.set tid ⟨sessionId, .awaitOwn realm rid⟩ }

/-- Advance caller `tid` by one atomic block, if it is runnable. -/
def taskStep (σ : RefreshSysState) (tid : Nat) : RefreshSysState :=
  match σ.tasks[tid]? with
  | none => σ
  | some t =>
    match t.pc with
    | .start => { σ with tasks := σ.tasks.set tid ({ t with pc := .check }) }
    | .check =>
        match QuickBooksSessionStorage.getSession σ.sessions t.sessionId σ.now with
        | (none, m₁) =>
            { σ with sessions := m₁,
                     tasks := σ.tasks.set tid ({ t with pc := .done .threw }) }
        | (some s, m₁) =>
            let σ₁ := { σ with sessions := m₁ }
            if σ.now + 300000 < s.qbTokenExpiresAt then
              { σ₁ with tasks := σ.tasks.set tid ({ t with pc := .done (.returned false) }) }
            else
              match σ.mutexes.get s.realmId with
              | some rid =>
                  { σ₁ with
                    tasks := σ.tasks.set tid ({ t with pc := .waiting s.realmId rid }) }
              | none => spawnRefresh σ₁ tid t.sessionId s.realmId
    | .waiting realm rid =>
        match refreshSettled σ rid with
        | none => σ
        | some false =>
            { σ with tasks := σ.tasks.set tid ({ t with pc := .done .threw }) }
        | some true =>
            match QuickBooksSessionStorage.getSession σ.sessions t.sessionId σ.now with
            | (some s, m₁) =>
                let σ₁ := { σ with sessions := m₁ }
                if σ.now + 300000 < s.qbTokenExpiresAt then
                  { σ₁ with
                    tasks := σ.tasks.set tid ({ t with pc := .done (.returned true) }) }
                else spawnRefresh σ₁ tid t.sessionId realm
            | (none, m₁) => spawnRefresh { σ with sessions := m₁ } tid t.sessionId realm
    | .awaitOwn realm rid =>
        match refreshSettled σ rid with
        | none => σ
        | some ok =>
            { σ with
              mutexes := σ.mutexes.del realm,
              tasks := σ.tasks.set tid
                ({ t with pc := .done (if ok then .returned true else .threw) }) }
    | .done _ => σ

/-- Advance refresh promise `rid` by one atomic block (its network call makes
progress only via `deliver`). -/
def refreshStep (σ : RefreshSysState) (rid : Nat) : RefreshSysState :=
  match σ.refreshes[rid]? with
  | none => σ
  | some r =>
    match r.rpc with
    | .rStart => { σ with refreshes := σ.refreshes.set rid ({ r with rpc := .rRead }) }
    | .rRead =>
        match QuickBooksSessionStorage.getSession σ.sessions r.sessionId σ.now with
        | (none, m₁) =>
            { σ with sessions := m₁,
                     refreshes := σ.refreshes.set rid ({ r with rpc := .rRejected }) }
        | (some s, m₁) =>
            { σ with
              sessions := m₁,
              refreshes := σ.refreshes.set rid
                ({ r with rpc := .rInFlight s.realmId s.qbRefreshToken }) }
    | .rFanOut [] _ =>
        { σ with refreshes := σ.refreshes.set rid ({ r with rpc := .rResolved }) }
    | .rFanOut (sid :: rest) upd =>
        { σ with
          sessions := QuickBooksSessionStorage.updateTokens σ.sessions sid
            upd.qbAccessToken upd.qbRefreshToken upd.qbTokenExpiresAt σ.now,
          refreshes := σ.refreshes.set rid ({ r with rpc := .rFanOut rest upd }) }
    | _ => σ

/-- The network response of refresh `rid` arrives (`none` = rejection). On
success the response is validated, the sessions of the realm are enumerated
and the per-session updates are queued (each `await updateTokens` is a
separate `refreshStep`). -/
def deliverStep (σ : RefreshSysState) (rid : Nat)
    (outcome : Option RefreshResponse) : RefreshSysState :=
  match σ.refreshes[rid]? with
  | none => σ
  | some r =>
    match r.rpc with
    | .rInFlight realm _ =>
        match outcome with
        | none =>
            { σ with refreshes := σ.refreshes.set rid ({ r with rpc := .rRejected }) }
        | some resp =>
            if resp.access_token = "" ∨ resp.refresh_token = "" then
              { σ with refreshes := σ.refreshes.set rid ({ r with rpc := .rRejected }) }
            else
              let pending := ((QuickBooksSessionStorage.getAllSessions σ.sessions).filter
                fun p => p.2.realmId = realm).map Prod.fst
              let upd : TokenUpdate :=
                ⟨resp.access_token, resp.refresh_token, σ.now + resp.expires_in * 1000⟩
              { σ with
                refreshes := σ.refreshes.set rid ({ r with rpc := .rFanOut pending upd }) }
    | _ => σ

/-- Scheduler choices. -/
inductive RefreshLabel where
  | task (tid : Nat)
  | refresh (rid : Nat)
  | deliver (rid : Nat) (outcome : Option RefreshResponse)
  deriving Repr, DecidableEq

/-- One scheduler step. -/
def refreshSysStep (σ : RefreshSysState) : RefreshLabel → RefreshSysState
  | .task tid => taskStep σ tid
  | .refresh rid => refreshStep σ rid
  | .deliver rid outcome => deliverStep σ rid outcome

/-- Run a schedule. -/
def refreshSysRun (σ : RefreshSysState) (labels : List RefreshLabel) :
    RefreshSysState :=
  labels.foldl refreshSysStep σ

/-- Number of `refreshUsingToken` network calls currently outstanding for a
realm. -/
def inFlightCount (σ : RefreshSysState) (realm : String) : Nat :=
  (σ.refreshes.filter fun r =>
    match r.rpc with
    | .rInFlight rm _ => rm = realm
    | _ => false).length

/-! ## Claim theorems -/

/-- **C9.** For every BrokerToken (MCP token) stored at time `T`, a lookup at
time `t` returns the token's session iff `t ≤ T + 3600` seconds; strictly
later lookups return nothing and the `/mcp` gate then rejects the bearer
token as unauthenticated (401 invalid-token). -/
theorem brokerToken_accepted_iff_within_ttl (st : ServerState)
    (token sid : String) (T t : Nat) :
    ((MCPTokenStorage.getToken
        (MCPTokenStorage.storeToken st.mcpTokens token sid T) token t).1 =
      some ⟨sid, T, T + 3600 * 1000⟩ ↔ t ≤ T + 3600 * 1000) ∧
    (T + 3600 * 1000 < t →
      (MCPTokenStorage.getToken
        (MCPTokenStorage.storeToken st.mcpTokens token sid T) token t).1 = none ∧
      (mcpGate (some token)
        { st with mcpTokens := MCPTokenStorage.storeToken st.mcpTokens token sid T }
        t).1 = .invalidToken) := by
  have hget : (MCPTokenStorage.storeToken st.mcpTokens token sid T).get token =
      some ⟨sid, T, T + 3600000⟩ := by
    simp [MCPTokenStorage.storeToken, JsMap.get_set]
  constructor
  · constructor
    · intro h
      by_contra hlt
      simp [MCPTokenStorage.getToken, hget, show T + 3600000 < t by omega] at h
    · intro h
      have : ¬ (T + 3600000 < t) := by omega
      simp [MCPTokenStorage.getToken, hget, this]
  · intro h
    have hexp : T + 3600000 < t := by omega
    constructor
    · simp [MCPTokenStorage.getToken, hget, hexp]
    · simp [mcpGate, MCPTokenStorage.getToken, hget, hexp]

/-- Witness for C9 at `T = 5`, `t = T + 3600s + 1` on a concrete store. -/
theorem brokerToken_accepted_iff_within_ttl_witness :
    5 + 3600 * 1000 < 3600006 ∧
    (MCPTokenStorage.getToken
      (MCPTokenStorage.storeToken (⟨[], [], [], [], []⟩ : ServerState).mcpTokens
        "mcp_t" "sid1" 5) "mcp_t" 3600006).1 = none :=
  ⟨by norm_num,
   ((brokerToken_accepted_iff_within_ttl ⟨[], [], [], [], []⟩ "mcp_t" "sid1" 5
      3600006).2 (by norm_num)).1⟩

/-! ### Supporting lemmas: encoding round trips -/

theorem toNat_ofNat_valid (n : Nat) (h : n.isValidChar) :
    (Char.ofNat n).toNat = n := by
  simp [Char.ofNat, h, Char.toNat, Char.ofNatAux, UInt32.toNat]

theorem char_toNat_bounds (c : Char) :
    c.toNat < 55296 ∨ (57343 < c.toNat ∧ c.toNat < 1114112) := by
  have h := c.valid
  simp [UInt32.isValidChar, Nat.isValidChar] at h
  exact h

theorem b64ValStd_b64CharStd : ∀ n, n < 64 → b64ValStd (b64CharStd n) = some n := by
  decide

theorem b64CharStd_ne_pad : ∀ n, n < 64 → b64CharStd n ≠ '=' := by decide

theorem b64ToUrl_ne_pad : ∀ n, n < 64 → b64ToUrlChar (b64CharStd n) ≠ '=' := by
  decide

theorem urlToB64_b64ToUrl : ∀ n, n < 64 →
    urlToB64Char (b64ToUrlChar (b64CharStd n)) = b64CharStd n := by decide

theorem b64DecodeGroups_encodeGroups (bs : List Nat) (hb : ∀ b ∈ bs, b < 256) :
    b64DecodeGroups (b64EncodeGroups bs) = some bs := by
  induction bs using b64EncodeGroups.induct with
  | case1 => rfl
  | case2 a =>
      have ha : a < 256 := hb a (by simp)
      have h₁ : a / 4 < 64 := by omega
      have h₂ : a % 4 * 16 < 64 := by omega
      simp [b64EncodeGroups, b64DecodeGroups, b64ValStd_b64CharStd _ h₁,
        b64ValStd_b64CharStd _ h₂]
      omega
  | case3 a b =>
      have ha : a < 256 := hb a (by simp)
      have hbb : b < 256 := hb b (by simp)
      have h₁ : a / 4 < 64 := by omega
      have h₂ : a % 4 * 16 + b / 16 < 64 := by omega
      have h₃ : b % 16 * 4 < 64 := by omega
      simp [b64EncodeGroups, b64DecodeGroups, b64CharStd_ne_pad _ h₃,
        b64ValStd_b64CharStd _ h₁, b64ValStd_b64CharStd _ h₂,
        b64ValStd_b64CharStd _ h₃]
      omega
  | case4 a b c rest ih =>
      have ha : a < 256 := hb a (by simp)
      have hbb : b < 256 := hb b (by simp)
      have hc : c < 256 := hb c (by simp)
      have hrest : ∀ x ∈ rest, x < 256 := fun x hx => hb x (by simp [hx])
      have h₁ : a / 4 < 64 := by omega
      have h₂ : a % 4 * 16 + b / 16 < 64 := by omega
      have h₃ : b % 16 * 4 + c / 64 < 64 := by omega
      have h₄ : c % 64 < 64 := by omega
      simp [b64EncodeGroups, b64DecodeGroups, b64CharStd_ne_pad _ h₃,
        b64CharStd_ne_pad _ h₄, b64ValStd_b64CharStd _ h₁,
        b64ValStd_b64CharStd _ h₂, b64ValStd_b64CharStd _ h₃,
        b64ValStd_b64CharStd _ h₄, ih hrest]
      omega

theorem b64EncodeGroups_url_repad (bs : List Nat) (hb : ∀ b ∈ bs, b < 256) :
    ((((b64EncodeGroups bs).map b64ToUrlChar).filter fun c => c ≠ '=').map
        urlToB64Char) ++
      List.replicate
        ((4 - (((b64EncodeGroups bs).map b64ToUrlChar).filter fun c => c ≠ '=').length % 4) % 4)
        '=' = b64EncodeGroups bs := by
  induction bs using b64EncodeGroups.induct with
  | case1 => rfl
  | case2 a =>
      have ha : a < 256 := hb a (by simp)
      have h₁ : a / 4 < 64 := by omega
      have h₂ : a % 4 * 16 < 64 := by omega
      have hpad : b64ToUrlChar '=' = '=' := by decide
      simp [b64EncodeGroups, b64ToUrl_ne_pad _ h₁, b64ToUrl_ne_pad _ h₂,
        urlToB64_b64ToUrl _ h₁, urlToB64_b64ToUrl _ h₂, hpad, List.replicate]
  | case3 a b =>
      have ha : a < 256 := hb a (by simp)
      have hbb : b < 256 := hb b (by simp)
      have h₁ : a / 4 < 64 := by omega
      have h₂ : a % 4 * 16 + b / 16 < 64 := by omega
      have h₃ : b % 16 * 4 < 64 := by omega
      have hpad : b64ToUrlChar '=' = '=' := by decide
      simp [b64EncodeGroups, b64ToUrl_ne_pad _ h₁, b64ToUrl_ne_pad _ h₂,
        b64ToUrl_ne_pad _ h₃, urlToB64_b64ToUrl _ h₁, urlToB64_b64ToUrl _ h₂,
        urlToB64_b64ToUrl _ h₃, hpad, List.replicate]
  | case4 a b c rest ih =>
      have ha : a < 256 := hb a (by simp)
      have hbb : b < 256 := hb b (by simp)
      have hc : c < 256 := hb c (by simp)
      have hrest : ∀ x ∈ rest, x < 256 := fun x hx => hb x (by simp [hx])
      have h₁ : a / 4 < 64 := by omega
      have h₂ : a % 4 * 16 + b / 16 < 64 := by omega
      have h₃ : b % 16 * 4 + c / 64 < 64 := by omega
      have h₄ : c % 64 < 64 := by omega
      simp [b64EncodeGroups, b64ToUrl_ne_pad _ h₁, b64ToUrl_ne_pad _ h₂,
        b64ToUrl_ne_pad _ h₃, b64ToUrl_ne_pad _ h₄,
        urlToB64_b64ToUrl _ h₁, urlToB64_b64ToUrl _ h₂, urlToB64_b64ToUrl _ h₃,
        urlToB64_b64ToUrl _ h₄]
      have ih₂ := ih hrest
      simp at ih₂
      convert ih₂ using 3
      omega

theorem base64Url_roundtrip (bs : List Nat) (hb : ∀ b ∈ bs, b < 256) :
    base64UrlDecode (base64UrlEncode bs) = some bs := by
  unfold base64UrlDecode base64UrlEncode
  have htl : (String.mk ((((b64EncodeGroups bs).map b64ToUrlChar).filter
      fun c => c ≠ '=')) ).toList =
      (((b64EncodeGroups bs).map b64ToUrlChar).filter fun c => c ≠ '=') := rfl
  rw [htl, List.length_map, b64EncodeGroups_url_repad bs hb]
  exact b64DecodeGroups_encodeGroups bs hb

theorem utf8DecodeList_encodeChar (c : Char) (rest : List Nat) :
    utf8DecodeList (utf8EncodeChar c ++ rest) =
      (utf8DecodeList rest).map fun cs => c :: cs := by
  have hb := char_toNat_bounds c
  have hofn : Char.ofNat c.toNat = c := Char.ofNat_toNat c
  rcases Nat.lt_or_ge c.toNat 128 with h₁ | h₁
  · simp only [utf8EncodeChar, if_pos h₁, List.cons_append, List.nil_append]
    rw [utf8DecodeList, if_pos h₁, hofn]
  · rcases Nat.lt_or_ge c.toNat 2048 with h₂ | h₂
    · have e₁ : ¬ c.toNat < 128 := by omega
      simp only [utf8EncodeChar, if_neg e₁, if_pos h₂, List.cons_append,
        List.nil_append]
      rw [utf8DecodeList]
      have d₁ : ¬ (192 + c.toNat / 64 < 128) := by omega
      have d₂ : ¬ (192 + c.toNat / 64 < 192) := by omega
      have d₃ : 192 + c.toNat / 64 < 224 := by omega
      simp only [if_neg d₁, if_neg d₂, if_pos d₃, List.length_cons, List.getD,
        List.get?, List.drop, Option.getD]
      have hlen : ¬ (rest.length + 1 < 1) := by omega
      have hval : (192 + c.toNat / 64 - 192) * 64 + (128 + c.toNat % 64 - 128) =
          c.toNat := by omega
      rw [if_neg hlen, hval,
        if_pos ⟨by omega, by omega, by omega, by simp [isScalar]; omega⟩, hofn]
    · rcases Nat.lt_or_ge c.toNat 65536 with h₃ | h₃
      · have e₁ : ¬ c.toNat < 128 := by omega
        have e₂ : ¬ c.toNat < 2048 := by omega
        simp only [utf8EncodeChar, if_neg e₁, if_neg e₂, if_pos h₃,
          List.cons_append, List.nil_append]
        rw [utf8DecodeList]
        have d₁ : ¬ (224 + c.toNat / 4096 < 128) := by omega
        have d₂ : ¬ (224 + c.toNat / 4096 < 192) := by omega
        have d₃ : ¬ (224 + c.toNat / 4096 < 224) := by omega
        have d₄ : 224 + c.toNat / 4096 < 240 := by omega
        simp only [if_neg d₁, if_neg d₂, if_neg d₃, if_pos d₄, List.length_cons,
          List.getD, List.get?, List.drop, Option.getD]
        have hlen : ¬ (rest.length + 1 + 1 < 2) := by omega
        have hval : (224 + c.toNat / 4096 - 224) * 4096 +
            (128 + c.toNat / 64 % 64 - 128) * 64 + (128 + c.toNat % 64 - 128) =
            c.toNat := by omega
        rw [if_neg hlen, hval,
          if_pos ⟨by omega, by omega, by omega, by omega, by omega,
            by simp [isScalar]; omega⟩, hofn]
      · have e₁ : ¬ c.toNat < 128 := by omega
        have e₂ : ¬ c.toNat < 2048 := by omega
        have e₃ : ¬ c.toNat < 65536 := by omega
        have hup : c.toNat < 1114112 := by omega
        simp only [utf8EncodeChar, if_neg e₁, if_neg e₂, if_neg e₃,
          List.cons_append, List.nil_append]
        rw [utf8DecodeList]
        have d₁ : ¬ (240 + c.toNat / 262144 < 128) := by omega
        have d₂ : ¬ (240 + c.toNat / 262144 < 192) := by omega
        have d₃ : ¬ (240 + c.toNat / 262144 < 224) := by omega
        have d₄ : ¬ (240 + c.toNat / 262144 < 240) := by omega
        have d₅ : 240 + c.toNat / 262144 < 248 := by omega
        simp only [if_neg d₁, if_neg d₂, if_neg d₃, if_neg d₄, if_pos d₅,
          List.length_cons, List.getD, List.get?, List.drop, Option.getD]
        have hlen : ¬ (rest.length + 1 + 1 + 1 < 3) := by omega
        have hval : (240 + c.toNat / 262144 - 240) * 262144 +
            (128 + c.toNat / 4096 % 64 - 128) * 4096 +
            (128 + c.toNat / 64 % 64 - 128) * 64 + (128 + c.toNat % 64 - 128) =
            c.toNat := by omega
        rw [if_neg hlen, hval,
          if_pos ⟨by omega, by omega, by omega, by omega, by omega, by omega,
            by omega, by simp [isScalar]; omega⟩, hofn]

theorem utf8DecodeList_encode (cs : List Char) :
    utf8DecodeList ((cs.map utf8EncodeChar).flatten) = some cs := by
  induction cs with
  | nil =>
      rw [utf8DecodeList.eq_def]
      rfl
  | cons c cs ih =>
      simp [utf8DecodeList_encodeChar, ih]

theorem utf8_roundtrip (s : String) : utf8Decode (utf8Encode s) = some s := by
  unfold utf8Decode utf8Encode
  rw [utf8DecodeList_encode]
  cases s
  rfl

theorem utf8EncodeChar_lt (c : Char) : ∀ b ∈ utf8EncodeChar c, b < 256 := by
  have hb := char_toNat_bounds c
  intro b hmem
  rcases Nat.lt_or_ge c.toNat 128 with h₁ | h₁
  · simp [utf8EncodeChar, h₁] at hmem
    omega
  · rcases Nat.lt_or_ge c.toNat 2048 with h₂ | h₂
    · have e₁ : ¬ c.toNat < 128 := by omega
      simp [utf8EncodeChar, e₁, h₂] at hmem
      rcases hmem with h | h <;> omega
    · rcases Nat.lt_or_ge c.toNat 65536 with h₃ | h₃
      · have e₁ : ¬ c.toNat < 128 := by omega
        have e₂ : ¬ c.toNat < 2048 := by omega
        simp [utf8EncodeChar, e₁, e₂, h₃] at hmem
        rcases hmem with h | h | h <;> omega
      · have e₁ : ¬ c.toNat < 128 := by omega
        have e₂ : ¬ c.toNat < 2048 := by omega
        have e₃ : ¬ c.toNat < 65536 := by omega
        have hup : c.toNat < 1114112 := by omega
        simp [utf8EncodeChar, e₁, e₂, e₃] at hmem
        rcases hmem with h | h | h | h <;> omega

theorem utf8Encode_lt (s : String) : ∀ b ∈ utf8Encode s, b < 256 := by
  intro b hmem
  simp [utf8Encode] at hmem
  obtain ⟨c, _, hc⟩ := hmem
  exact utf8EncodeChar_lt c b hc

theorem stringMk_toList (s : String) : String.mk s.toList = s := by
  cases s
  rfl

theorem hexDigitVal_hexDigitChar : ∀ d, d < 16 → hexDigitVal (hexDigitChar d) = some d := by
  decide

theorem parseJsonStringBody_escape (cs : List Char) (k : List Char) :
    parseJsonStringBody ((cs.map jsonEscapeChar).flatten ++ '"' :: k) =
      some (cs, k) := by
  induction cs with
  | nil =>
      rw [show ((([] : List Char).map jsonEscapeChar).flatten ++ '"' :: k) = '"' :: k by simp]
      rw [parseJsonStringBody]
      simp
  | cons c cs ih =>
      have hstep : (((c :: cs).map jsonEscapeChar).flatten ++ '"' :: k) =
          jsonEscapeChar c ++ ((cs.map jsonEscapeChar).flatten ++ '"' :: k) := by
        simp
      rw [hstep]
      by_cases h₁ : c = '"'
      · subst h₁
        rw [show jsonEscapeChar '"' = ['\\', '"'] from rfl]
        rw [List.cons_append, List.cons_append, List.nil_append, parseJsonStringBody]
        simp [escCharVal, ih]
      · by_cases h₂ : c = '\\'
        · subst h₂
          rw [show jsonEscapeChar '\\' = ['\\', '\\'] from rfl]
          rw [List.cons_append, List.cons_append, List.nil_append, parseJsonStringBody]
          simp [escCharVal, ih]
        · by_cases h₃ : c.toNat = 8
          · have hc : Char.ofNat 8 = c := by rw [← h₃]; exact Char.ofNat_toNat c
            have he : jsonEscapeChar c = ['\\', 'b'] := by
              simp [jsonEscapeChar, h₁, h₂, h₃]
            rw [he, List.cons_append, List.cons_append, List.nil_append,
              parseJsonStringBody]
            simp [escCharVal, ih]
            exact hc
          · by_cases h₄ : c.toNat = 9
            · have hc : Char.ofNat 9 = c := by rw [← h₄]; exact Char.ofNat_toNat c
              have he : jsonEscapeChar c = ['\\', 't'] := by
                simp [jsonEscapeChar, h₁, h₂, h₃, h₄]
              rw [he, List.cons_append, List.cons_append, List.nil_append,
                parseJsonStringBody]
              simp [escCharVal, ih]
              exact hc
            · by_cases h₅ : c.toNat = 10
              · have hc : Char.ofNat 10 = c := by rw [← h₅]; exact Char.ofNat_toNat c
                have he : jsonEscapeChar c = ['\\', 'n'] := by
                  simp [jsonEscapeChar, h₁, h₂, h₃, h₄, h₅]
                rw [he, List.cons_append, List.cons_append, List.nil_append,
                  parseJsonStringBody]
                simp [escCharVal, ih]
                exact hc
              · by_cases h₆ : c.toNat = 12
                · have hc : Char.ofNat 12 = c := by rw [← h₆]; exact Char.ofNat_toNat c
                  have he : jsonEscapeChar c = ['\\', 'f'] := by
                    simp [jsonEscapeChar, h₁, h₂, h₃, h₄, h₅, h₆]
                  rw [he, List.cons_append, List.cons_append, List.nil_append,
                    parseJsonStringBody]
                  simp [escCharVal, ih]
                  exact hc
                · by_cases h₇ : c.toNat = 13
                  · have hc : Char.ofNat 13 = c := by rw [← h₇]; exact Char.ofNat_toNat c
                    have he : jsonEscapeChar c = ['\\', 'r'] := by
                      simp [jsonEscapeChar, h₁, h₂, h₃, h₄, h₅, h₆, h₇]
                    rw [he, List.cons_append, List.cons_append, List.nil_append,
                      parseJsonStringBody]
                    simp [escCharVal, ih]
                    exact hc
                  · by_cases h₈ : c.toNat < 32
                    · have hc : Char.ofNat c.toNat = c := Char.ofNat_toNat c
                      have he : jsonEscapeChar c =
                          ['\\', 'u', '0', '0', hexDigitChar (c.toNat / 16),
                           hexDigitChar (c.toNat % 16)] := by
                        simp [jsonEscapeChar, h₁, h₂, h₃, h₄, h₅, h₆, h₇, h₈]
                      rw [he]
                      rw [show (['\\', 'u', '0', '0', hexDigitChar (c.toNat / 16),
                          hexDigitChar (c.toNat % 16)] ++
                          ((cs.map jsonEscapeChar).flatten ++ '"' :: k)) =
                        ('\\' :: 'u' :: '0' :: '0' :: hexDigitChar (c.toNat / 16) ::
                          hexDigitChar (c.toNat % 16) ::
                          ((cs.map jsonEscapeChar).flatten ++ '"' :: k)) by simp]
                      rw [parseJsonStringBody]
                      have hd₁ : hexDigitVal (hexDigitChar (c.toNat / 16)) =
                          some (c.toNat / 16) :=
                        hexDigitVal_hexDigitChar _ (by omega)
                      have hd₂ : hexDigitVal (hexDigitChar (c.toNat % 16)) =
                          some (c.toNat % 16) :=
                        hexDigitVal_hexDigitChar _ (by omega)
                      have hzero : hexDigitVal '0' = some 0 := by decide
                      have hval : 0 * 4096 + 0 * 256 + c.toNat / 16 * 16 + c.toNat % 16 =
                          c.toNat := by omega
                      have hsc : isScalar c.toNat = true := by simp [isScalar]; omega
                      simp [hd₁, hd₂, hzero, ih]
                      have hval₂ : c.toNat / 16 * 16 + c.toNat % 16 = c.toNat := by
                        omega
                      rw [hval₂]
                      exact ⟨hsc, hc⟩
                    · have he : jsonEscapeChar c = [c] := by
                        simp [jsonEscapeChar, h₁, h₂, h₃, h₄, h₅, h₆, h₇, h₈]
                      rw [he, List.cons_append, List.nil_append, parseJsonStringBody]
                      have hq : ¬ (c = '"') := h₁
                      have hb : ¬ (c = '\\') := h₂
                      have hlt : ¬ (c.toNat < 32) := h₈
                      simp [hq, hb, hlt, ih]

theorem jsonQuote_append (s : String) (k : List Char) :
    jsonQuote s ++ k = '"' :: ((s.toList.map jsonEscapeChar).flatten ++ '"' :: k) := by
  simp [jsonQuote]

theorem parseJsonValue_quote (f : Nat) (s : String) (k : List Char) :
    parseJsonValue (f + 1) (jsonQuote s ++ k) = some (.jstr s, k) := by
  rw [jsonQuote_append, parseJsonValue]
  simp [List.dropWhile, isJsonWs, parseJsonStringBody_escape, stringMk_toList]

theorem decimalRepr_all_digits (n : Nat) : ∀ c ∈ decimalRepr n, isDigitChar c := by
  induction n using Nat.strong_induction_on with
  | _ n ih =>
    rw [decimalRepr]
    by_cases h : n < 10
    · simp only [dif_pos h, List.mem_singleton]
      intro c hc
      subst hc
      have hv := toNat_ofNat_valid (48 + n) (Or.inl (by omega))
      simp [isDigitChar, hv]
      omega
    · simp only [dif_neg h]
      intro c hc
      rcases List.mem_append.mp hc with hm | hm
      · exact ih (n / 10) (Nat.div_lt_self (by omega) (by omega)) c hm
      · have hceq := List.mem_singleton.mp hm
        subst hceq
        have hv := toNat_ofNat_valid (48 + n % 10) (Or.inl (by omega))
        simp [isDigitChar, hv]
        omega

theorem decimalRepr_ne_nil (n : Nat) : decimalRepr n ≠ [] := by
  rw [decimalRepr]
  by_cases h : n < 10 <;> simp [h]

theorem digitsVal_append (acc : Nat) (xs ys : List Char) :
    digitsVal acc (xs ++ ys) = digitsVal (digitsVal acc xs) ys := by
  induction xs generalizing acc with
  | nil => rfl
  | cons x xs ih => exact ih _

theorem decimalRepr_lt (n : Nat) (h : n < 10) :
    decimalRepr n = [Char.ofNat (48 + n)] := by
  conv_lhs => rw [decimalRepr]
  rw [dif_pos h]

theorem decimalRepr_ge (n : Nat) (h : ¬ n < 10) :
    decimalRepr n = decimalRepr (n / 10) ++ [Char.ofNat (48 + n % 10)] := by
  conv_lhs => rw [decimalRepr]
  rw [dif_neg h]

theorem digitsVal_decimalRepr (n : Nat) :
    ∀ acc, digitsVal acc (decimalRepr n) =
      acc * 10 ^ (decimalRepr n).length + n := by
  induction n using Nat.strong_induction_on with
  | _ n ih =>
    intro acc
    by_cases h : n < 10
    · have hv := toNat_ofNat_valid (48 + n) (Or.inl (by omega))
      rw [decimalRepr_lt n h]
      rw [show digitsVal acc [Char.ofNat (48 + n)] =
        acc * 10 + ((Char.ofNat (48 + n)).toNat - 48) from rfl]
      rw [hv, show ([Char.ofNat (48 + n)] : List Char).length = 1 from rfl, pow_one]
      omega
    · rw [decimalRepr_ge n h, digitsVal_append]
      have hd := ih (n / 10) (Nat.div_lt_self (by omega) (by omega)) acc
      rw [hd]
      have hv := toNat_ofNat_valid (48 + n % 10) (Or.inl (by omega))
      rw [show ∀ X, digitsVal X [Char.ofNat (48 + n % 10)] =
        X * 10 + ((Char.ofNat (48 + n % 10)).toNat - 48) from fun X => rfl]
      rw [hv, List.length_append,
        show ([Char.ofNat (48 + n % 10)] : List Char).length = 1 from rfl]
      rw [show 48 + n % 10 - 48 = n % 10 from by omega, pow_succ]
      have hn : n / 10 * 10 + n % 10 = n := by omega
      calc (acc * 10 ^ (decimalRepr (n / 10)).length + n / 10) * 10 + n % 10
          = acc * (10 ^ (decimalRepr (n / 10)).length * 10) +
              (n / 10 * 10 + n % 10) := by ring
        _ = acc * (10 ^ (decimalRepr (n / 10)).length * 10) + n := by rw [hn]

theorem digitsVal_decimal (n : Nat) : digitsVal 0 (decimalRepr n) = n := by
  simpa using digitsVal_decimalRepr n 0

theorem takeWhile_append_of_all {p : Char → Bool} (xs ys : List Char)
    (h : ∀ x ∈ xs, p x) :
    (xs ++ ys).takeWhile p = xs ++ ys.takeWhile p := by
  induction xs with
  | nil => simp
  | cons x xs ih =>
      have hx : p x := h x (by simp)
      have hxs : ∀ x ∈ xs, p x := fun x hm => h x (by simp [hm])
      simp [List.takeWhile, hx, ih hxs]

theorem parseJsonNat_decimal (n : Nat) (r : List Char) :
    parseJsonNat (decimalRepr n ++ '}' :: r) = some (n, '}' :: r) := by
  unfold parseJsonNat
  have htw : (decimalRepr n ++ '}' :: r).takeWhile isDigitChar = decimalRepr n := by
    rw [takeWhile_append_of_all _ _ (decimalRepr_all_digits n)]
    simp [List.takeWhile, isDigitChar]
  rw [htw, List.drop_left, digitsVal_decimal]
  simp [decimalRepr_ne_nil n]

theorem parseJsonValue_decimal (f n : Nat) (r : List Char) :
    parseJsonValue (f + 1) (decimalRepr n ++ '}' :: r) =
      some (.jnum false n, '}' :: r) := by
  obtain ⟨d, ds, hds⟩ : ∃ d ds, decimalRepr n = d :: ds := by
    cases hd : decimalRepr n with
    | nil => exact absurd hd (decimalRepr_ne_nil n)
    | cons d ds => exact ⟨d, ds, rfl⟩
  have hdig : isDigitChar d := decimalRepr_all_digits n d (by rw [hds]; simp)
  have hdn : 48 ≤ d.toNat ∧ d.toNat ≤ 57 := by simpa [isDigitChar] using hdig
  have hne : ∀ ch : Char, ch.toNat < 48 ∨ 57 < ch.toNat → ¬ d = ch := by
    intro ch hch he
    rw [he] at hdn
    omega
  have hws : isJsonWs d = false := by
    have h32 : ¬ d = ' ' := hne ' ' (by decide)
    simp [isJsonWs, h32]
    omega
  rw [hds, List.cons_append, parseJsonValue]
  rw [show (d :: (ds ++ '}' :: r)).dropWhile isJsonWs = d :: (ds ++ '}' :: r) from
    by simp [List.dropWhile, hws]]
  dsimp only
  rw [if_neg (hne 'n' (by decide)), if_neg (hne 't' (by decide)),
    if_neg (hne 'f' (by decide)), if_neg (hne '"' (by decide)),
    if_neg (hne '-' (by decide)), if_pos hdig]
  rw [show d :: (ds ++ '}' :: r) = decimalRepr n ++ '}' :: r from
    by rw [hds, List.cons_append]]
  rw [parseJsonNat_decimal]
  rfl

theorem parseJsonMembers_step (fuel : Nat) (key : String) (rest : List Char) :
    parseJsonMembers (fuel + 1) (jsonQuote key ++ ':' :: rest) =
      match parseJsonValue fuel rest with
      | some (v, r₃) =>
        if (r₃.dropWhile isJsonWs).headD ' ' = ',' then
          (parseJsonMembers fuel ((r₃.dropWhile isJsonWs).drop 1)).map fun p =>
            ((key, v) :: p.1, p.2)
        else if (r₃.dropWhile isJsonWs).headD ' ' = '}' then
          some ([(key, v)], (r₃.dropWhile isJsonWs).drop 1)
        else none
      | none => none := by
  rw [jsonQuote_append, parseJsonMembers]
  rw [show ('"' :: ((key.toList.map jsonEscapeChar).flatten ++ '"' :: (':' :: rest))).dropWhile
      isJsonWs = '"' :: ((key.toList.map jsonEscapeChar).flatten ++ '"' :: (':' :: rest)) from
    by simp [List.dropWhile, isJsonWs]]
  dsimp only
  rw [if_pos rfl, parseJsonStringBody_escape]
  dsimp only
  rw [show (':' :: rest).dropWhile isJsonWs = ':' :: rest from
    by simp [List.dropWhile, isJsonWs]]
  dsimp only [List.headD, List.drop]
  rw [if_pos rfl, stringMk_toList]

theorem parseJsonMembers_state (f : Nat) (cs sid : String) (t : Nat) (r : List Char) :
    parseJsonMembers (f + 1 + 1 + 1 + 1)
      (jsonQuote "claudeState" ++ ':' ::
        (jsonQuote cs ++ ',' ::
          (jsonQuote "sessionId" ++ ':' ::
            (jsonQuote sid ++ ',' ::
              (jsonQuote "timestamp" ++ ':' :: (decimalRepr t ++ '}' :: r)))))) =
      some ([("claudeState", JValue.jstr cs), ("sessionId", JValue.jstr sid),
             ("timestamp", JValue.jnum false t)], r) := by
  rw [parseJsonMembers_step (f + 1 + 1 + 1)]
  rw [parseJsonValue_quote (f + 1 + 1)]
  dsimp only
  rw [show (',' ::
      (jsonQuote "sessionId" ++ ':' ::
        (jsonQuote sid ++ ',' ::
          (jsonQuote "timestamp" ++ ':' :: (decimalRepr t ++ '}' :: r))))).dropWhile isJsonWs =
    ',' ::
      (jsonQuote "sessionId" ++ ':' ::
        (jsonQuote sid ++ ',' ::
          (jsonQuote "timestamp" ++ ':' :: (decimalRepr t ++ '}' :: r)))) from
    by simp [List.dropWhile, isJsonWs]]
  dsimp only [List.headD, List.drop]
  rw [if_pos rfl]
  rw [parseJsonMembers_step (f + 1 + 1)]
  rw [parseJsonValue_quote (f + 1)]
  dsimp only
  rw [show (',' ::
      (jsonQuote "timestamp" ++ ':' :: (decimalRepr t ++ '}' :: r))).dropWhile isJsonWs =
    ',' :: (jsonQuote "timestamp" ++ ':' :: (decimalRepr t ++ '}' :: r)) from
    by simp [List.dropWhile, isJsonWs]]
  dsimp only [List.headD, List.drop]
  rw [if_pos rfl]
  rw [parseJsonMembers_step (f + 1)]
  rw [parseJsonValue_decimal f]
  dsimp only
  rw [show ('}' :: r).dropWhile isJsonWs = '}' :: r from by simp [List.dropWhile, isJsonWs]]
  dsimp only [List.headD, List.drop]
  rw [if_neg (by decide), if_pos rfl]
  rfl

theorem dropWhile_ws_cons (c : Char) (X : List Char) (h : isJsonWs c = false) :
    (c :: X).dropWhile isJsonWs = c :: X := by
  simp [List.dropWhile, h]

theorem parseJsonValue_stateJson (f : Nat) (cs sid : String) (t : Nat) :
    parseJsonValue (f + 1 + 1 + 1 + 1 + 1) (stateJsonChars cs sid t) =
      some (JValue.jobj [("claudeState", JValue.jstr cs), ("sessionId", JValue.jstr sid),
            ("timestamp", JValue.jnum false t)], []) := by
  have he : stateJsonChars cs sid t =
      '{' :: (jsonQuote "claudeState" ++ ':' ::
        (jsonQuote cs ++ ',' ::
          (jsonQuote "sessionId" ++ ':' ::
            (jsonQuote sid ++ ',' ::
              (jsonQuote "timestamp" ++ ':' ::
                (decimalRepr t ++ '}' :: ([] : List Char))))))) := by
    simp [stateJsonChars]
  rw [he, parseJsonValue, dropWhile_ws_cons '{' _ (by decide)]
  dsimp only
  rw [if_neg (by decide), if_neg (by decide), if_neg (by decide), if_neg (by decide),
      if_neg (by decide), if_neg (by decide), if_neg (by decide), if_pos rfl]
  have hq : ∀ (Y : List Char),
      ((jsonQuote "claudeState" ++ Y).dropWhile isJsonWs).headD ' ' = '"' := by
    intro Y
    rw [jsonQuote_append, dropWhile_ws_cons '"' _ (by decide)]
    rfl
  rw [if_neg (by rw [hq]; decide)]
  rw [parseJsonMembers_state f]
  rfl

theorem parseJson_stateJson (cs sid : String) (t : Nat) :
    parseJson (String.mk (stateJsonChars cs sid t)) =
      some (JValue.jobj [("claudeState", JValue.jstr cs), ("sessionId", JValue.jstr sid),
            ("timestamp", JValue.jnum false t)]) := by
  unfold parseJson
  rw [show (String.mk (stateJsonChars cs sid t)).length =
      (stateJsonChars cs sid t).length from rfl]
  rw [show (String.mk (stateJsonChars cs sid t)).toList = stateJsonChars cs sid t from rfl]
  have hlen : 4 ≤ (stateJsonChars cs sid t).length := by
    simp [stateJsonChars, jsonQuote]
    omega
  rw [show (stateJsonChars cs sid t).length + 1 =
      ((stateJsonChars cs sid t).length - 4) + 1 + 1 + 1 + 1 + 1 from by omega]
  rw [parseJsonValue_stateJson]
  rfl

theorem decodeQBState_encodeQBState (cs sid : String) (t now now₂ : Nat)
    (hcs : cs ≠ "") (hsid : sid ≠ "") (ht : t ≠ 0) :
    decodeQBState (encodeQBState cs sid (some t) now) now₂ =
      some ⟨cs, sid, t⟩ := by
  unfold encodeQBState decodeQBState
  dsimp only
  rw [if_neg ht]
  rw [base64Url_roundtrip _ (utf8Encode_lt _)]
  simp only [Option.bind_eq_bind, Option.some_bind]
  rw [utf8_roundtrip]
  simp only [Option.some_bind]
  rw [parseJson_stateJson]
  simp only [Option.some_bind]
  dsimp only [jLookup]
  rw [if_pos rfl]
  rw [if_neg (by decide), if_pos rfl]
  dsimp only
  rw [if_neg (by simp [hcs, hsid])]
  rw [if_neg (by decide), if_neg (by decide), if_pos rfl]
  dsimp only
  rw [if_neg ht]

/-- C10 (amended): for non-empty `claudeState` and `sessionId` and any
nonzero timestamp, `decodeQBState` inverts `encodeQBState` exactly,
recovering the same `claudeState`, `sessionId` and `timestamp` at any decode
time. (A zero timestamp is JS-falsy: `data.timestamp || Date.now()` replaces
it with the encoding time, so the original claim fails at `timestamp = 0`.) -/
theorem qbState_roundtrip_nonzero (cs sid : String) (t now now₂ : Nat)
    (hcs : cs ≠ "") (hsid : sid ≠ "") (ht : t ≠ 0) :
    decodeQBState (encodeQBState cs sid (some t) now) now₂ =
      some { claudeState := cs, sessionId := sid, timestamp := t } :=
  decodeQBState_encodeQBState cs sid t now now₂ hcs hsid ht

theorem qbState_roundtrip_nonzero_witness :
    ("a" : String) ≠ "" ∧ ("b" : String) ≠ "" ∧ (5 : Nat) ≠ 0 ∧
    decodeQBState (encodeQBState "a" "b" (some 5) 9) 7 =
      some { claudeState := "a", sessionId := "b", timestamp := 5 } :=
  ⟨by decide, by decide, by decide,
   qbState_roundtrip_nonzero "a" "b" 5 9 7 (by decide) (by decide) (by decide)⟩

/-- C10 counterexample to the original claim: encoding `timestamp = 0` at
time 5 decodes to timestamp 5, not 0 — `timestamp: data.timestamp ||
Date.now()` treats 0 as missing. -/
theorem qbState_timestamp_zero_counterexample :
    decodeQBState (encodeQBState "a" "b" (some 0) 5) 7 =
      some { claudeState := "a", sessionId := "b", timestamp := 5 } ∧
    decodeQBState (encodeQBState "a" "b" (some 0) 5) 7 ≠
      some { claudeState := "a", sessionId := "b", timestamp := 0 } := by
  have he : encodeQBState "a" "b" (some 0) 5 = encodeQBState "a" "b" (some 5) 5 := by
    unfold encodeQBState
    rfl
  have h := decodeQBState_encodeQBState "a" "b" 5 5 7 (by decide) (by decide) (by decide)
  rw [he, h]
  refine ⟨rfl, ?_⟩
  simp

theorem base64UrlEncode_123_ne_empty (r : List Nat) :
    base64UrlEncode (123 :: r) ≠ "" := by
  unfold base64UrlEncode
  intro hcon
  have h2 : (((b64EncodeGroups (123 :: r)).map b64ToUrlChar).filter
      fun c => c ≠ '=') = [] := by
    have h3 := congrArg String.data hcon
    simpa using h3
  have hmem : 'e' ∈ ((b64EncodeGroups (123 :: r)).map b64ToUrlChar).filter
      fun c => c ≠ '=' := by
    rw [List.mem_filter]
    refine ⟨?_, by decide⟩
    rw [List.mem_map]
    refine ⟨b64CharStd (123 / 4), ?_, by decide⟩
    match r with
    | [] =>
        rw [show b64EncodeGroups [123] =
          [b64CharStd (123 / 4), b64CharStd (123 % 4 * 16), '=', '='] from rfl]
        exact List.mem_cons_self _ _
    | [b] =>
        rw [show b64EncodeGroups [123, b] =
          [b64CharStd (123 / 4), b64CharStd (123 % 4 * 16 + b / 16),
           b64CharStd (b % 16 * 4), '='] from rfl]
        exact List.mem_cons_self _ _
    | b :: c :: rest =>
        rw [show b64EncodeGroups (123 :: b :: c :: rest) =
          b64CharStd (123 / 4) :: b64CharStd (123 % 4 * 16 + b / 16) ::
          b64CharStd (b % 16 * 4 + c / 64) :: b64CharStd (c % 64) ::
          b64EncodeGroups rest from rfl]
        exact List.mem_cons_self _ _
  rw [h2] at hmem
  exact absurd hmem (List.not_mem_nil _)

theorem utf8Encode_mk_cons (c : Char) (l : List Char) :
    utf8Encode (String.mk (c :: l)) = utf8EncodeChar c ++ utf8Encode (String.mk l) := by
  simp [utf8Encode]

theorem base64UrlEncode_utf8_brace_ne_empty (l : List Char) :
    base64UrlEncode (utf8Encode (String.mk ('{' :: l))) ≠ "" := by
  rw [utf8Encode_mk_cons]
  rw [show utf8EncodeChar '{' = [123] from rfl, List.singleton_append]
  exact base64UrlEncode_123_ne_empty _

theorem stateToken_ne_empty (cs sid : String) (t : Nat) :
    base64UrlEncode (utf8Encode (String.mk (stateJsonChars cs sid t))) ≠ "" := by
  have h : stateJsonChars cs sid t =
      '{' :: ((jsonQuote "claudeState" ++ ':' :: jsonQuote cs ++
        ',' :: jsonQuote "sessionId" ++ ':' :: jsonQuote sid ++
        ',' :: jsonQuote "timestamp" ++ ':' :: decimalRepr t) ++ ['}']) := by
    simp [stateJsonChars]
  rw [h]
  exact base64UrlEncode_utf8_brace_ne_empty _

theorem encodeQBState_ne_empty (cs sid : String) (ts : Option Nat) (now : Nat) :
    encodeQBState cs sid ts now ≠ "" := by
  unfold encodeQBState
  cases ts with
  | none => exact stateToken_ne_empty cs sid now
  | some t => exact stateToken_ne_empty cs sid _

/-- C6 (code bug): the callback handler never consults the state bridge.
Here the bridge is empty (`qbStates = []`), so the inner state token was
never stored — exactly the "not found" case the claim says must produce a
400 with no side effects — yet the handler, which only calls
`decodeQBState` and never `getQBState`, accepts the decodable state,
redirects to Claude, and creates both a CompanySession and an
AuthorizationCode. -/
theorem callback_ignores_state_bridge :
    (handleOAuthCallback
      { code := some "qbauth", realmId := some "9130001",
        state := some (encodeQBState "cstate" "sess1" (some 5) 5), error := none }
      { pkce := [], qbStates := [], qbSessions := [], authCodes := [], mcpTokens := [] }
      { now := 7, exchangeResult := some
          { access_token := "at", refresh_token := "rt", expires_in := 3600 },
        freshAuthCode := "ac1", claudeRedirectUri := none }).1 =
      .redirectClaude "https://claude.ai/api/mcp/auth_callback?code=ac1&state=cstate" ∧
    (handleOAuthCallback
      { code := some "qbauth", realmId := some "9130001",
        state := some (encodeQBState "cstate" "sess1" (some 5) 5), error := none }
      { pkce := [], qbStates := [], qbSessions := [], authCodes := [], mcpTokens := [] }
      { now := 7, exchangeResult := some
          { access_token := "at", refresh_token := "rt", expires_in := 3600 },
        freshAuthCode := "ac1", claudeRedirectUri := none }).2.qbSessions.get "sess1" =
      some { qbAccessToken := "at", qbRefreshToken := "rt",
             qbTokenExpiresAt := 3600007, realmId := "9130001",
             createdAt := 7, lastUsedAt := 7 } ∧
    (handleOAuthCallback
      { code := some "qbauth", realmId := some "9130001",
        state := some (encodeQBState "cstate" "sess1" (some 5) 5), error := none }
      { pkce := [], qbStates := [], qbSessions := [], authCodes := [], mcpTokens := [] }
      { now := 7, exchangeResult := some
          { access_token := "at", refresh_token := "rt", expires_in := 3600 },
        freshAuthCode := "ac1", claudeRedirectUri := none }).2.authCodes.get "ac1" =
      some { sessionId := "sess1", claudeState := "cstate", timestamp := 7,
             expiresAt := 600007, used := false } := by
  have hdec := decodeQBState_encodeQBState "cstate" "sess1" 5 5 7
    (by decide) (by decide) (by decide)
  unfold handleOAuthCallback
  rw [if_neg (by simp [truthy])]
  rw [if_neg (by simp [truthy,
    encodeQBState_ne_empty "cstate" "sess1" (some 5) 5])]
  dsimp only [Option.getD]
  rw [hdec]
  dsimp only
  refine ⟨rfl, ?_, ?_⟩ <;> decide

/-- C8 (amended): whenever `validateAuthorizeParams` reports an error and at
least one of `response_type`, `client_id`, `redirect_uri`, `code_challenge`,
`state` is present, the handler returns the structured error naming the
offending field and leaves the whole server state — in particular the PKCE
store — unchanged. (When all five are absent the handler instead serves the
OAuth discovery metadata, so the original "every invalid request gets an
invalid_request error" is too strong.) -/
theorem authorize_invalid_params_rejected (req : AuthorizeRequest)
    (st : ServerState) (o : AuthorizeOracle) (err : String)
    (hv : validateAuthorizeParams req = some err)
    (hsome : truthy req.response_type = true ∨ truthy req.client_id = true ∨
      truthy req.redirect_uri = true ∨ truthy req.code_challenge = true ∨
      truthy req.state = true) :
    handleAuthorizeEndpoint req st o = (.badRequest err, st) := by
  unfold handleAuthorizeEndpoint
  rw [hv]
  dsimp only
  rw [if_neg (by
    rintro ⟨h1, h2, h3, h4, h5⟩
    rcases hsome with h | h | h | h | h <;> simp_all)]

theorem authorize_invalid_params_rejected_witness :
    validateAuthorizeParams
      { response_type := some "code", client_id := none, redirect_uri := none,
        code_challenge := none, code_challenge_method := none, state := none,
        scope := none } = some "Missing required parameter: client_id" ∧
    handleAuthorizeEndpoint
      { response_type := some "code", client_id := none, redirect_uri := none,
        code_challenge := none, code_challenge_method := none, state := none,
        scope := none }
      { pkce := [], qbStates := [], qbSessions := [], authCodes := [], mcpTokens := [] }
      { now := 0, freshSessionId := "s", freshAuthCode := "c", qbClientId := none,
        qbRedirectUri := none, qbEnvironment := "production" } =
      (.badRequest "Missing required parameter: client_id",
       { pkce := [], qbStates := [], qbSessions := [], authCodes := [],
         mcpTokens := [] }) :=
  ⟨by decide,
   authorize_invalid_params_rejected _ _ _ _ (by decide) (Or.inl (by decide))⟩

/-- C8 counterexample to the original claim: a request with ALL of
`response_type`, `client_id`, `redirect_uri`, `code_challenge`, `state`
missing fails validation, yet the handler answers with the OAuth discovery
metadata document instead of a structured `invalid_request` error. -/
theorem authorize_all_missing_metadata_counterexample :
    handleAuthorizeEndpoint
      { response_type := none, client_id := none, redirect_uri := none,
        code_challenge := none, code_challenge_method := none, state := none,
        scope := none }
      { pkce := [], qbStates := [], qbSessions := [], authCodes := [], mcpTokens := [] }
      { now := 0, freshSessionId := "s", freshAuthCode := "c", qbClientId := none,
        qbRedirectUri := none, qbEnvironment := "production" } =
      (.metadata,
       { pkce := [], qbStates := [], qbSessions := [], authCodes := [],
         mcpTokens := [] }) ∧
    (∀ msg, AuthorizeResult.metadata ≠ .badRequest msg) := by
  exact ⟨by decide, fun msg => by simp⟩

/-- C7: with the other parameters valid, the redirect_uri check is an exact
hostname allow-list over parsed URLs: an unparseable redirect_uri or one
whose hostname is not literally `claude.ai`, `localhost` or `127.0.0.1` is
rejected with a 400 invalid-redirect response and the server state — in
particular the PKCE and state-bridge stores — is untouched, while an
allow-listed hostname is never rejected by this check. A hostname that
merely contains an allowed host (e.g. `claude.ai.attacker.example`) is not
equal to it, hence rejected. -/
theorem authorize_redirect_uri_allowlist (req : AuthorizeRequest)
    (st : ServerState) (o : AuthorizeOracle)
    (hv : validateAuthorizeParams req = none) :
    (urlHostname (req.redirect_uri.getD "") = none →
      handleAuthorizeEndpoint req st o =
        (.invalidRedirect "redirect_uri must be a valid URL.", st)) ∧
    (∀ host, urlHostname (req.redirect_uri.getD "") = some host →
      ¬ (host = "claude.ai" ∨ host = "localhost" ∨ host = "127.0.0.1") →
      handleAuthorizeEndpoint req st o =
        (.invalidRedirect
          "redirect_uri must be a Claude URL (claude.ai) or localhost for testing.",
         st)) ∧
    (∀ host, urlHostname (req.redirect_uri.getD "") = some host →
      (host = "claude.ai" ∨ host = "localhost" ∨ host = "127.0.0.1") →
      ∀ msg, (handleAuthorizeEndpoint req st o).1 ≠ .invalidRedirect msg) := by
  refine ⟨?_, ?_, ?_⟩
  · intro hu
    unfold handleAuthorizeEndpoint
    rw [hv]
    dsimp only
    rw [hu]
  · intro host hu hnot
    unfold handleAuthorizeEndpoint
    rw [hv]
    dsimp only
    rw [hu]
    dsimp only
    rw [if_pos (by
      intro hc
      apply hnot
      simpa using hc)]
  · intro host hu hmemd msg
    unfold handleAuthorizeEndpoint
    rw [hv]
    dsimp only
    rw [hu]
    dsimp only
    rw [if_neg (not_not_intro (by
      rcases hmemd with h | h | h <;> subst h <;> decide))]
    rcases hact : QuickBooksSessionStorage.getActiveCompanySession st.qbSessions o.now
        with _ | ⟨sid, s⟩ <;> dsimp only
    · by_cases hcfg : ¬ truthy o.qbClientId ∨ ¬ truthy o.qbRedirectUri
      · rw [if_pos hcfg]
        simp
      · rw [if_neg hcfg]
        simp
    · simp

theorem authorize_redirect_uri_allowlist_witness :
    validateAuthorizeParams
      { response_type := some "code", client_id := some "cid",
        redirect_uri := some "https://claude.ai.attacker.example/cb",
        code_challenge := some "chal", code_challenge_method := some "plain",
        state := some "xyz", scope := none } = none ∧
    urlHostname "https://claude.ai.attacker.example/cb" =
      some "claude.ai.attacker.example" ∧
    handleAuthorizeEndpoint
      { response_type := some "code", client_id := some "cid",
        redirect_uri := some "https://claude.ai.attacker.example/cb",
        code_challenge := some "chal", code_challenge_method := some "plain",
        state := some "xyz", scope := none }
      { pkce := [], qbStates := [], qbSessions := [], authCodes := [], mcpTokens := [] }
      { now := 0, freshSessionId := "s", freshAuthCode := "c", qbClientId := none,
        qbRedirectUri := none, qbEnvironment := "production" } =
      (.invalidRedirect
        "redirect_uri must be a Claude URL (claude.ai) or localhost for testing.",
       { pkce := [], qbStates := [], qbSessions := [], authCodes := [],
         mcpTokens := [] }) :=
  ⟨by decide, by decide,
   (authorize_redirect_uri_allowlist _ _ _ (by decide)).2.1
     "claude.ai.attacker.example" (by decide) (by decide)⟩

theorem getActiveCompanySession_margin (m : JsMap QuickBooksSession) (now : Nat)
    (sid : String) (s : QuickBooksSession)
    (h : QuickBooksSessionStorage.getActiveCompanySession m now = some (sid, s)) :
    now + 1800000 ≤ s.qbTokenExpiresAt := by
  induction m with
  | nil => simp [QuickBooksSessionStorage.getActiveCompanySession] at h
  | cons hd tl ih =>
      obtain ⟨sid₀, s₀⟩ := hd
      rw [QuickBooksSessionStorage.getActiveCompanySession] at h
      by_cases hc : now + 1800000 ≤ s₀.qbTokenExpiresAt
      · rw [if_pos hc] at h
        simp only [Option.some.injEq, Prod.mk.injEq] at h
        exact h.2 ▸ hc
      · rw [if_neg hc] at h
        exact ih h

/-- C5 (modelled from the spec: `getActiveCompanySession` is only called,
never defined, in the provided sources; it is embedded per the spec as the
first stored session whose expiry is at least 30 minutes out): a valid
`/authorize` request that finds such an active company session gets the
multi-user fast path: the handler stores the PKCE challenge, clones the
active session's tokens, expiry and realm into a new session under the
fresh session id, mints an authorization code bound to the fresh session id
and the outer state, and redirects straight back to the outer redirect_uri
with that code and state — the state bridge is untouched and no QuickBooks
redirect happens. -/
theorem authorize_fast_path_clones_session (req : AuthorizeRequest)
    (st : ServerState) (o : AuthorizeOracle) (host sid₀ : String)
    (s₀ : QuickBooksSession)
    (hv : validateAuthorizeParams req = none)
    (hu : urlHostname (req.redirect_uri.getD "") = some host)
    (hmem : host = "claude.ai" ∨ host = "localhost" ∨ host = "127.0.0.1")
    (hact : QuickBooksSessionStorage.getActiveCompanySession st.qbSessions o.now =
      some (sid₀, s₀)) :
    o.now + 1800000 ≤ s₀.qbTokenExpiresAt ∧
    handleAuthorizeEndpoint req st o =
      (.redirectClaude (req.redirect_uri.getD "" ++ "?code=" ++ o.freshAuthCode ++
          "&state=" ++ req.state.getD ""),
       { st with
          pkce := PKCEStorage.storePKCE st.pkce (req.state.getD "")
            (req.code_challenge.getD "") (req.code_challenge_method.getD "")
            (req.redirect_uri.getD "") (req.client_id.getD "") o.now,
          qbSessions := QuickBooksSessionStorage.storeSession st.qbSessions
            o.freshSessionId s₀.qbAccessToken s₀.qbRefreshToken
            s₀.qbTokenExpiresAt s₀.realmId o.now o.now,
          authCodes := AuthCodeStorage.storeAuthCode st.authCodes o.freshAuthCode
            o.freshSessionId (req.state.getD "") o.now }) := by
  refine ⟨getActiveCompanySession_margin _ _ _ _ hact, ?_⟩
  unfold handleAuthorizeEndpoint
  rw [hv]
  dsimp only
  rw [hu]
  try dsimp only
  rw [if_neg (not_not_intro (by
    rcases hmem with h | h | h <;> subst h <;> decide))]
  try dsimp only
  rw [hact]

theorem authorize_fast_path_clones_session_witness :
    validateAuthorizeParams
      { response_type := some "code", client_id := some "cid",
        redirect_uri := some "https://claude.ai/cb", code_challenge := some "chal",
        code_challenge_method := some "plain", state := some "xyz",
        scope := none } = none ∧
    urlHostname "https://claude.ai/cb" = some "claude.ai" ∧
    QuickBooksSessionStorage.getActiveCompanySession
      [("sess0",
        { qbAccessToken := "at", qbRefreshToken := "rt",
          qbTokenExpiresAt := 2000000, realmId := "r1",
          createdAt := 0, lastUsedAt := 0 })] 10 =
      some ("sess0",
        { qbAccessToken := "at", qbRefreshToken := "rt",
          qbTokenExpiresAt := 2000000, realmId := "r1",
          createdAt := 0, lastUsedAt := 0 }) ∧
    ((10 : Nat) + 1800000 ≤ 2000000 ∧
     handleAuthorizeEndpoint
      { response_type := some "code", client_id := some "cid",
        redirect_uri := some "https://claude.ai/cb", code_challenge := some "chal",
        code_challenge_method := some "plain", state := some "xyz", scope := none }
      { pkce := [], qbStates := [],
        qbSessions := [("sess0",
          { qbAccessToken := "at", qbRefreshToken := "rt",
            qbTokenExpiresAt := 2000000, realmId := "r1", createdAt := 0,
            lastUsedAt := 0 })],
        authCodes := [], mcpTokens := [] }
      { now := 10, freshSessionId := "snew", freshAuthCode := "code1",
        qbClientId := none, qbRedirectUri := none,
        qbEnvironment := "production" } =
      (.redirectClaude "https://claude.ai/cb?code=code1&state=xyz",
       { pkce := [("xyz",
           { codeChallenge := "chal", codeChallengeMethod := "plain",
             redirectUri := "https://claude.ai/cb", clientId := "cid",
             timestamp := 10 })],
         qbStates := [],
         qbSessions := [("sess0",
           { qbAccessToken := "at", qbRefreshToken := "rt",
             qbTokenExpiresAt := 2000000, realmId := "r1", createdAt := 0,
             lastUsedAt := 0 }),
           ("snew",
           { qbAccessToken := "at", qbRefreshToken := "rt",
             qbTokenExpiresAt := 2000000, realmId := "r1", createdAt := 10,
             lastUsedAt := 10 })],
         authCodes := [("code1",
           { sessionId := "snew", claudeState := "xyz",
             timestamp := 10, expiresAt := 600010, used := false })],
         mcpTokens := [] })) :=
  ⟨by decide, by decide, by decide,
   (by decide : (10 : Nat) + 1800000 ≤ 2000000),
   ((authorize_fast_path_clones_session _ _ _ "claude.ai" "sess0"
      { qbAccessToken := "at", qbRefreshToken := "rt", qbTokenExpiresAt := 2000000,
        realmId := "r1", createdAt := 0, lastUsedAt := 0 }
      (by decide) (by decide) (Or.inl rfl) (by decide)).2).trans (by decide)⟩

theorem JsMap.get_del_ne {α : Type} (m : JsMap α) (k k₁ : String) (h : ¬ k = k₁) :
    (m.del k).get k₁ = m.get k₁ := by
  induction m with
  | nil => rfl
  | cons hd tl ih =>
      obtain ⟨k₀, v₀⟩ := hd
      by_cases hk : k₀ = k
      · subst hk
        simp [JsMap.del, JsMap.get, h]
      · simp [JsMap.del, JsMap.get, hk, ih]

theorem getAuthCode_used_or_absent (m : JsMap AuthorizationCode) (code : String)
    (now : Nat) (h : ∀ a, m.get code = some a → a.used = true) :
    AuthCodeStorage.getAuthCode m code now = (none, m) := by
  unfold AuthCodeStorage.getAuthCode
  rcases hm : m.get code with _ | a
  · rfl
  · dsimp only
    rw [if_pos (h a hm)]

theorem getAuthCode_success_elim (m : JsMap AuthorizationCode) (code : String)
    (now : Nat) (m₁ : JsMap AuthorizationCode) (a₀ : AuthorizationCode)
    (hget : AuthCodeStorage.getAuthCode m code now = (some a₀, m₁)) :
    m.get code = some a₀ ∧ m₁ = m ∧ a₀.used = false := by
  unfold AuthCodeStorage.getAuthCode at hget
  rcases hm : m.get code with _ | a₁
  · rw [hm] at hget
    simp at hget
  · rw [hm] at hget
    dsimp only at hget
    by_cases h1 : a₁.used = true
    · rw [if_pos h1] at hget
      simp at hget
    · rw [if_neg h1] at hget
      by_cases h2 : a₁.expiresAt < now
      · rw [if_pos h2] at hget
        simp at hget
      · rw [if_neg h2] at hget
        simp only [Prod.mk.injEq, Option.some.injEq] at hget
        refine ⟨by rw [hget.1], hget.2.symm, ?_⟩
        rw [← hget.1]
        exact Bool.not_eq_true _ |>.mp h1

theorem handleToken_preserves_used (req : TokenRequest) (st : ServerState)
    (now : Nat) (tok code : String)
    (h : ∀ a, st.authCodes.get code = some a → a.used = true) :
    ∀ a, (handleTokenEndpoint req st now tok).2.authCodes.get code = some a →
      a.used = true := by
  unfold handleTokenEndpoint
  by_cases h1 : ¬ truthy req.grant_type ∨ req.grant_type ≠ some "authorization_code"
  · rw [if_pos h1]; exact h
  rw [if_neg h1]
  by_cases h2 : ¬ truthy req.code
  · rw [if_pos h2]; exact h
  rw [if_neg h2]
  by_cases h3 : ¬ truthy req.code_verifier
  · rw [if_pos h3]; exact h
  rw [if_neg h3]
  by_cases h4 : ¬ isValidCodeVerifier (req.code_verifier.getD "")
  · rw [if_pos h4]; exact h
  rw [if_neg h4]
  dsimp only
  by_cases hc : req.code.getD "" = code
  · rw [hc, getAuthCode_used_or_absent _ _ _ h]
    exact h
  · rcases hg : AuthCodeStorage.getAuthCode st.authCodes (req.code.getD "") now
        with ⟨r, m₁⟩
    have hm₁ : m₁.get code = st.authCodes.get code := by
      unfold AuthCodeStorage.getAuthCode at hg
      rcases hmg : st.authCodes.get (req.code.getD "") with _ | a₁
      · rw [hmg] at hg
        simp only [Prod.mk.injEq] at hg
        rw [← hg.2]
      · rw [hmg] at hg
        dsimp only at hg
        by_cases hu : a₁.used = true
        · rw [if_pos hu] at hg
          simp only [Prod.mk.injEq] at hg
          rw [← hg.2]
        · rw [if_neg hu] at hg
          by_cases he : a₁.expiresAt < now
          · rw [if_pos he] at hg
            simp only [Prod.mk.injEq] at hg
            rw [← hg.2, JsMap.get_del_ne _ _ _ hc]
          · rw [if_neg he] at hg
            simp only [Prod.mk.injEq] at hg
            rw [← hg.2]
    rcases r with _ | a₁
    · dsimp only
      intro a ha
      exact h a (hm₁ ▸ ha)
    · dsimp only
      have hm₂ : ∀ a, (AuthCodeStorage.markAsUsed m₁ (req.code.getD "")).get code =
          some a → a.used = true := by
        intro a ha
        rw [AuthCodeStorage.markAsUsed, JsMap.get_update, if_neg hc, hm₁] at ha
        exact h a ha
      rcases PKCEStorage.getPKCE st.pkce a₁.claudeState now with ⟨rp, pkce₁⟩
      rcases rp with _ | ch
      · exact hm₂
      · dsimp only
        by_cases hv : ¬ verifyPKCE (req.code_verifier.getD "") ch.codeChallenge
            ch.codeChallengeMethod
        · rw [if_pos hv]; exact hm₂
        rw [if_neg hv]
        by_cases hcl : req.client_id ≠ some ch.clientId
        · rw [if_pos hcl]; exact hm₂
        rw [if_neg hcl]
        exact hm₂

theorem handleToken_replay_invalid_grant (σ : ServerState) (req₂ : TokenRequest)
    (now₂ : Nat) (tok₂ code : String) (hne : code ≠ "")
    (hσ : ∀ a, σ.authCodes.get code = some a → a.used = true)
    (hg2 : req₂.grant_type = some "authorization_code")
    (hc2 : req₂.code = some code)
    (hv2 : truthy req₂.code_verifier = true)
    (hvv2 : isValidCodeVerifier (req₂.code_verifier.getD "") = true) :
    (handleTokenEndpoint req₂ σ now₂ tok₂).1 = .err 400 "invalid_grant" := by
  unfold handleTokenEndpoint
  rw [hg2, hc2]
  rw [if_neg (by decide)]
  rw [if_neg (by simp [truthy, hne])]
  rw [if_neg (by simp [hv2])]
  rw [if_neg (by simp [hvv2])]
  dsimp only [Option.getD]
  rw [getAuthCode_used_or_absent _ _ _ hσ]

/-- C1 (amended): as soon as the `/token` code lookup succeeds the code is
marked used in the resulting state — whatever the PKCE lookup, PKCE
verification or client-id check later decide — and after any chain of
further `/token` requests, a replay presenting the same code with
`grant_type=authorization_code` and a well-formed `code_verifier` is
answered 400 `invalid_grant`. (The original "regardless of the correctness
of grant_type, code_verifier" is too strong: those parameters are validated
before the code lookup, so such a replay fails with a different error code,
e.g. `unsupported_grant_type`.) -/
theorem authCode_single_use (req₁ : TokenRequest) (st : ServerState)
    (now₁ : Nat) (tok₁ code : String) (a₀ : AuthorizationCode)
    (hne : code ≠ "")
    (hgrant : req₁.grant_type = some "authorization_code")
    (hcode : req₁.code = some code)
    (hver : truthy req₁.code_verifier = true)
    (hvalid : isValidCodeVerifier (req₁.code_verifier.getD "") = true)
    (hget : AuthCodeStorage.getAuthCode st.authCodes code now₁ =
      (some a₀, st.authCodes)) :
    (handleTokenEndpoint req₁ st now₁ tok₁).2.authCodes.get code =
      some { a₀ with used := true } ∧
    ∀ (chain : List (TokenRequest × Nat × String)) (req₂ : TokenRequest)
      (now₂ : Nat) (tok₂ : String),
      req₂.grant_type = some "authorization_code" → req₂.code = some code →
      truthy req₂.code_verifier = true →
      isValidCodeVerifier (req₂.code_verifier.getD "") = true →
      (handleTokenEndpoint req₂
        (chain.foldl (fun σ q => (handleTokenEndpoint q.1 σ q.2.1 q.2.2).2)
          (handleTokenEndpoint req₁ st now₁ tok₁).2)
        now₂ tok₂).1 = .err 400 "invalid_grant" := by
  have hgc := getAuthCode_success_elim st.authCodes code now₁ st.authCodes a₀ hget
  have hrun : (handleTokenEndpoint req₁ st now₁ tok₁).2.authCodes =
      AuthCodeStorage.markAsUsed st.authCodes code := by
    unfold handleTokenEndpoint
    rw [hgrant, hcode]
    rw [if_neg (by decide)]
    rw [if_neg (by simp [truthy, hne])]
    rw [if_neg (by simp [hver])]
    rw [if_neg (by simp [hvalid])]
    dsimp only [Option.getD]
    rw [hget]
    dsimp only
    rcases PKCEStorage.getPKCE st.pkce a₀.claudeState now₁ with ⟨rp, pkce₁⟩
    rcases rp with _ | ch
    · rfl
    · dsimp only
      split
      · rfl
      · split <;> rfl
  have h1 : (handleTokenEndpoint req₁ st now₁ tok₁).2.authCodes.get code =
      some { a₀ with used := true } := by
    rw [hrun, AuthCodeStorage.markAsUsed, JsMap.get_update, if_pos rfl, hgc.1]
    rfl
  refine ⟨h1, ?_⟩
  intro chain req₂ now₂ tok₂ hg2 hc2 hv2 hvv2
  have hinv₀ : ∀ a, (handleTokenEndpoint req₁ st now₁ tok₁).2.authCodes.get code =
      some a → a.used = true := by
    intro a ha
    rw [h1] at ha
    simp only [Option.some.injEq] at ha
    rw [← ha]
  have hfold : ∀ (ch : List (TokenRequest × Nat × String)) (σ : ServerState),
      (∀ a, σ.authCodes.get code = some a → a.used = true) →
      ∀ a, (ch.foldl (fun σ q => (handleTokenEndpoint q.1 σ q.2.1 q.2.2).2)
          σ).authCodes.get code = some a → a.used = true := by
    intro ch
    induction ch with
    | nil => intro σ hσ; exact hσ
    | cons q rest ih =>
        intro σ hσ
        exact ih _ (handleToken_preserves_used q.1 σ q.2.1 q.2.2 code hσ)
  exact handleToken_replay_invalid_grant _ _ _ _ _ hne (hfold chain _ hinv₀)
    hg2 hc2 hv2 hvv2

theorem authCode_single_use_witness :
    ("code1" : String) ≠ "" ∧
    AuthCodeStorage.getAuthCode
      [("code1", { sessionId := "sess1", claudeState := "xyz", timestamp := 0,
                   expiresAt := 600000, used := false })] "code1" 0 =
      (some { sessionId := "sess1", claudeState := "xyz", timestamp := 0,
              expiresAt := 600000, used := false },
       [("code1", { sessionId := "sess1", claudeState := "xyz", timestamp := 0,
                    expiresAt := 600000, used := false })]) ∧
    ((handleTokenEndpoint
        { grant_type := some "authorization_code", code := some "code1",
          code_verifier := some "aaaaaaaaaaaaaaaaaaaaaaaaaaaaaaaaaaaaaaaaaaa",
          client_id := some "cid" }
        { pkce := [("xyz",
            { codeChallenge := "aaaaaaaaaaaaaaaaaaaaaaaaaaaaaaaaaaaaaaaaaaa",
              codeChallengeMethod := "plain", redirectUri := "https://claude.ai/cb",
              clientId := "cid", timestamp := 0 })],
          qbStates := [], qbSessions := [],
          authCodes := [("code1",
            { sessionId := "sess1", claudeState := "xyz", timestamp := 0,
              expiresAt := 600000, used := false })],
          mcpTokens := [] }
        0 "mcptok").2.authCodes.get "code1" =
      some { sessionId := "sess1", claudeState := "xyz", timestamp := 0,
             expiresAt := 600000, used := true } ∧
     ∀ (chain : List (TokenRequest × Nat × String)) (req₂ : TokenRequest)
       (now₂ : Nat) (tok₂ : String),
       req₂.grant_type = some "authorization_code" → req₂.code = some "code1" →
       truthy req₂.code_verifier = true →
       isValidCodeVerifier (req₂.code_verifier.getD "") = true →
       (handleTokenEndpoint req₂
         (chain.foldl (fun σ q => (handleTokenEndpoint q.1 σ q.2.1 q.2.2).2)
           (handleTokenEndpoint
             { grant_type := some "authorization_code", code := some "code1",
               code_verifier := some "aaaaaaaaaaaaaaaaaaaaaaaaaaaaaaaaaaaaaaaaaaa",
               client_id := some "cid" }
             { pkce := [("xyz",
                 { codeChallenge := "aaaaaaaaaaaaaaaaaaaaaaaaaaaaaaaaaaaaaaaaaaa",
                   codeChallengeMethod := "plain",
                   redirectUri := "https://claude.ai/cb",
                   clientId := "cid", timestamp := 0 })],
               qbStates := [], qbSessions := [],
               authCodes := [("code1",
                 { sessionId := "sess1", claudeState := "xyz", timestamp := 0,
                   expiresAt := 600000, used := false })],
               mcpTokens := [] }
             0 "mcptok").2)
         now₂ tok₂).1 = .err 400 "invalid_grant") :=
  ⟨by decide, by decide,
   authCode_single_use _ _ 0 "mcptok" "code1"
     { sessionId := "sess1", claudeState := "xyz", timestamp := 0,
       expiresAt := 600000, used := false }
     (by decide) rfl rfl (by decide) (by decide) (by decide)⟩

/-- C1 counterexample to the original claim: after a successful exchange, a
replay of the very same code with `grant_type=refresh_token` and the same
verifier and client id is answered 400 `unsupported_grant_type`, not
`invalid_grant` — the grant_type check runs before the code lookup, so the
error code does depend on grant_type correctness. -/
theorem authCode_replay_wrong_grant_counterexample :
    (handleTokenEndpoint
       { grant_type := some "authorization_code", code := some "code1",
         code_verifier := some "aaaaaaaaaaaaaaaaaaaaaaaaaaaaaaaaaaaaaaaaaaa",
         client_id := some "cid" }
       { pkce := [("xyz",
           { codeChallenge := "aaaaaaaaaaaaaaaaaaaaaaaaaaaaaaaaaaaaaaaaaaa",
             codeChallengeMethod := "plain", redirectUri := "https://claude.ai/cb",
             clientId := "cid", timestamp := 0 })],
         qbStates := [], qbSessions := [],
         authCodes := [("code1",
           { sessionId := "sess1", claudeState := "xyz", timestamp := 0,
             expiresAt := 600000, used := false })],
         mcpTokens := [] }
       0 "mcptok").1 = .ok "mcptok" "Bearer" 3600 ∧
    (handleTokenEndpoint
       { grant_type := some "refresh_token", code := some "code1",
         code_verifier := some "aaaaaaaaaaaaaaaaaaaaaaaaaaaaaaaaaaaaaaaaaaa",
         client_id := some "cid" }
       (handleTokenEndpoint
         { grant_type := some "authorization_code", code := some "code1",
           code_verifier := some "aaaaaaaaaaaaaaaaaaaaaaaaaaaaaaaaaaaaaaaaaaa",
           client_id := some "cid" }
         { pkce := [("xyz",
             { codeChallenge := "aaaaaaaaaaaaaaaaaaaaaaaaaaaaaaaaaaaaaaaaaaa",
               codeChallengeMethod := "plain", redirectUri := "https://claude.ai/cb",
               clientId := "cid", timestamp := 0 })],
           qbStates := [], qbSessions := [],
           authCodes := [("code1",
             { sessionId := "sess1", claudeState := "xyz", timestamp := 0,
               expiresAt := 600000, used := false })],
           mcpTokens := [] }
         0 "mcptok").2
       1 "tok2").1 = .err 400 "unsupported_grant_type" ∧
    TokenResult.err 400 "unsupported_grant_type" ≠ .err 400 "invalid_grant" :=
  ⟨by decide, by decide, by decide⟩

theorem JsMap.mem_of_get_eq_some {α : Type} (m : JsMap α) (k : String) (v : α)
    (h : m.get k = some v) : (k, v) ∈ m := by
  induction m with
  | nil => simp [JsMap.get] at h
  | cons hd tl ih =>
      obtain ⟨k₀, v₀⟩ := hd
      rw [JsMap.get] at h
      by_cases hk : k₀ = k
      · rw [if_pos hk] at h
        simp only [Option.some.injEq] at h
        subst hk
        subst h
        exact List.mem_cons_self _ _
      · rw [if_neg hk] at h
        exact List.mem_cons_of_mem _ (ih h)

theorem JsMap.get_eq_some_of_mem_nodup {α : Type} (m : JsMap α) (k : String)
    (v : α) (hnd : m.Nodup) (h : (k, v) ∈ m) : m.get k = some v := by
  induction m with
  | nil => simp at h
  | cons hd tl ih =>
      obtain ⟨k₀, v₀⟩ := hd
      rw [List.mem_cons] at h
      rw [JsMap.Nodup, List.map_cons, List.nodup_cons] at hnd
      rcases h with h | h
      · rw [Prod.mk.injEq] at h
        rw [JsMap.get, if_pos h.1.symm, h.2]
      · have hk : ¬ k₀ = k := by
          intro hk
          have hm : k ∈ tl.map Prod.fst := List.mem_map_of_mem Prod.fst h
          exact hnd.1 (by rw [hk]; exact hm)
        rw [JsMap.get, if_neg hk]
        exact ih hnd.2 h

theorem JsMap.update_map_fst {α : Type} (m : JsMap α) (k : String) (f : α → α) :
    (m.update k f).map Prod.fst = m.map Prod.fst := by
  induction m with
  | nil => rfl
  | cons hd tl ih =>
      obtain ⟨k₀, v₀⟩ := hd
      by_cases hk : k₀ = k
      · simp [JsMap.update, hk]
      · simp [JsMap.update, hk, ih]

theorem foldl_updateTokens_get (lst : List (String × QuickBooksSession))
    (m : JsMap QuickBooksSession) (a r : String) (e n : Nat) (k : String) :
    (lst.foldl (fun acc p =>
      QuickBooksSessionStorage.updateTokens acc p.1 a r e n) m).get k =
      if k ∈ lst.map Prod.fst then
        (m.get k).map fun s =>
          { s with qbAccessToken := a, qbRefreshToken := r,
                   qbTokenExpiresAt := e, lastUsedAt := n }
      else m.get k := by
  induction lst generalizing m with
  | nil => simp
  | cons p tl ih =>
      rw [List.foldl_cons, ih]
      rw [QuickBooksSessionStorage.updateTokens, JsMap.get_update]
      by_cases h1 : p.1 = k
      · rw [if_pos h1]
        rw [if_pos (show k ∈ (p :: tl).map Prod.fst by
          simp only [List.map_cons, List.mem_cons]
          exact Or.inl h1.symm)]
        by_cases h2 : k ∈ tl.map Prod.fst
        · rw [if_pos h2, Option.map_map, h1]
          cases m.get k with
          | none => rfl
          | some s => rfl
        · rw [if_neg h2, h1]
      · rw [if_neg h1]
        by_cases h2 : k ∈ tl.map Prod.fst
        · rw [if_pos h2, if_pos (by simp [h2])]
        · rw [if_neg h2, if_neg (by
            simp only [List.map_cons, List.mem_cons]
            rintro (hk | hk)
            · exact h1 hk.symm
            · exact h2 hk)]

theorem mem_filter_realm_iff (m : JsMap QuickBooksSession) (realm k : String)
    (s : QuickBooksSession) (hnd : m.Nodup) (hget : m.get k = some s) :
    (k ∈ (m.filter fun p => p.2.realmId = realm).map Prod.fst) ↔
      s.realmId = realm := by
  constructor
  · intro hk
    rw [List.mem_map] at hk
    obtain ⟨⟨k₁, v⟩, hmem, hfst⟩ := hk
    rw [List.mem_filter] at hmem
    dsimp only at hfst
    subst hfst
    have hv : m.get k₁ = some v :=
      JsMap.get_eq_some_of_mem_nodup m k₁ v hnd hmem.1
    rw [hget] at hv
    simp only [Option.some.injEq] at hv
    rw [hv]
    exact of_decide_eq_true hmem.2
  · intro hr
    have hmem : (k, s) ∈ m := JsMap.mem_of_get_eq_some m k s hget
    rw [List.mem_map]
    exact ⟨(k, s), List.mem_filter.mpr ⟨hmem, by simp [hr]⟩, rfl⟩

/-- C4: whenever `refreshQuickBooksToken(sessionId)` returns successfully,
every stored session sharing the refreshed session's `realmId` afterwards
holds exactly the new access token, refresh token and expiry
(`now + expires_in * 1000`), and every session of any other realm is
unchanged. `Nodup` states that store keys are unique, which holds for every
JS `Map`. -/
theorem refresh_fanout_updates_realm (sessions : JsMap QuickBooksSession)
    (sessionId : String) (resp : RefreshResponse) (now : Nat)
    (out : JsMap QuickBooksSession) (hnd : sessions.Nodup)
    (hok : refreshQuickBooksToken sessions sessionId resp now = .ok out) :
    ∃ s₀, sessions.get sessionId = some s₀ ∧
      (∀ k s, sessions.get k = some s → s.realmId = s₀.realmId →
        out.get k = some
          { s with
            qbAccessToken := resp.access_token,
            qbRefreshToken := resp.refresh_token,
            qbTokenExpiresAt := now + resp.expires_in * 1000,
            lastUsedAt := now }) ∧
      (∀ k s, sessions.get k = some s → s.realmId ≠ s₀.realmId →
        out.get k = some s) := by
  unfold refreshQuickBooksToken QuickBooksSessionStorage.getSession
    QuickBooksSessionStorage.getAllSessions at hok
  rcases hg : sessions.get sessionId with _ | s₀
  · rw [hg] at hok
    simp at hok
  · rw [hg] at hok
    dsimp only at hok
    by_cases he : resp.access_token = "" ∨ resp.refresh_token = ""
    · rw [if_pos he] at hok
      simp at hok
    · rw [if_neg he] at hok
      simp only [Except.ok.injEq] at hok
      refine ⟨s₀, rfl, ?_, ?_⟩
      · intro k s hks hr
        rw [← hok, foldl_updateTokens_get]
        by_cases hk : sessionId = k
        · subst hk
          rw [hg] at hks
          simp only [Option.some.injEq] at hks
          subst hks
          have hm₁ : (sessions.update sessionId fun s =>
              { s with lastUsedAt := now }).get sessionId =
              some { s₀ with lastUsedAt := now } := by
            rw [JsMap.get_update, if_pos rfl, hg]
            rfl
          rw [if_pos ((mem_filter_realm_iff _ _ _ _
            (by rw [JsMap.Nodup, JsMap.update_map_fst]; exact hnd) hm₁).mpr hr)]
          rw [hm₁]
          rfl
        · have hm₁ : (sessions.update sessionId fun s =>
              { s with lastUsedAt := now }).get k = some s := by
            rw [JsMap.get_update, if_neg hk, hks]
          rw [if_pos ((mem_filter_realm_iff _ _ _ _
            (by rw [JsMap.Nodup, JsMap.update_map_fst]; exact hnd) hm₁).mpr hr)]
          rw [hm₁]
          rfl
      · intro k s hks hr
        have hk : ¬ sessionId = k := by
          intro hk
          subst hk
          rw [hg] at hks
          simp only [Option.some.injEq] at hks
          exact hr (by rw [hks])
        have hm₁ : (sessions.update sessionId fun s =>
            { s with lastUsedAt := now }).get k = some s := by
          rw [JsMap.get_update, if_neg hk, hks]
        rw [← hok, foldl_updateTokens_get]
        rw [if_neg (by
          intro hmem
          exact hr ((mem_filter_realm_iff _ _ _ _
            (by rw [JsMap.Nodup, JsMap.update_map_fst]; exact hnd) hm₁).mp hmem))]
        exact hm₁

theorem refresh_fanout_updates_realm_witness :
    JsMap.Nodup
      [("sA", ({ qbAccessToken := "a1", qbRefreshToken := "f1", qbTokenExpiresAt := 500, realmId := "r1", createdAt := 1, lastUsedAt := 2 } : QuickBooksSession)),
       ("sB", { qbAccessToken := "a2", qbRefreshToken := "f2", qbTokenExpiresAt := 600, realmId := "r1", createdAt := 3, lastUsedAt := 4 }),
       ("sC", { qbAccessToken := "a3", qbRefreshToken := "f3", qbTokenExpiresAt := 700, realmId := "r2", createdAt := 5, lastUsedAt := 6 })] ∧
    refreshQuickBooksToken
      [("sA", ({ qbAccessToken := "a1", qbRefreshToken := "f1", qbTokenExpiresAt := 500, realmId := "r1", createdAt := 1, lastUsedAt := 2 } : QuickBooksSession)),
       ("sB", { qbAccessToken := "a2", qbRefreshToken := "f2", qbTokenExpiresAt := 600, realmId := "r1", createdAt := 3, lastUsedAt := 4 }),
       ("sC", { qbAccessToken := "a3", qbRefreshToken := "f3", qbTokenExpiresAt := 700, realmId := "r2", createdAt := 5, lastUsedAt := 6 })] "sA"
      { access_token := "na", refresh_token := "nr", expires_in := 3600 } 1000 =
      .ok [("sA", { qbAccessToken := "na", qbRefreshToken := "nr", qbTokenExpiresAt := 3601000, realmId := "r1", createdAt := 1, lastUsedAt := 1000 }),
           ("sB", { qbAccessToken := "na", qbRefreshToken := "nr", qbTokenExpiresAt := 3601000, realmId := "r1", createdAt := 3, lastUsedAt := 1000 }),
           ("sC", { qbAccessToken := "a3", qbRefreshToken := "f3", qbTokenExpiresAt := 700, realmId := "r2", createdAt := 5, lastUsedAt := 6 })] ∧
    (∃ s₀, JsMap.get
        [("sA", ({ qbAccessToken := "a1", qbRefreshToken := "f1", qbTokenExpiresAt := 500, realmId := "r1", createdAt := 1, lastUsedAt := 2 } : QuickBooksSession)),
           ("sB", { qbAccessToken := "a2", qbRefreshToken := "f2", qbTokenExpiresAt := 600, realmId := "r1", createdAt := 3, lastUsedAt := 4 }),
           ("sC", { qbAccessToken := "a3", qbRefreshToken := "f3", qbTokenExpiresAt := 700, realmId := "r2", createdAt := 5, lastUsedAt := 6 })] "sA" = some s₀ ∧
      (∀ k s, JsMap.get
          [("sA", ({ qbAccessToken := "a1", qbRefreshToken := "f1", qbTokenExpiresAt := 500, realmId := "r1", createdAt := 1, lastUsedAt := 2 } : QuickBooksSession)),
           ("sB", { qbAccessToken := "a2", qbRefreshToken := "f2", qbTokenExpiresAt := 600, realmId := "r1", createdAt := 3, lastUsedAt := 4 }),
           ("sC", { qbAccessToken := "a3", qbRefreshToken := "f3", qbTokenExpiresAt := 700, realmId := "r2", createdAt := 5, lastUsedAt := 6 })] k = some s →
        s.realmId = s₀.realmId →
        JsMap.get
          [("sA", ({ qbAccessToken := "na", qbRefreshToken := "nr", qbTokenExpiresAt := 3601000, realmId := "r1", createdAt := 1, lastUsedAt := 1000 } : QuickBooksSession)),
           ("sB", { qbAccessToken := "na", qbRefreshToken := "nr", qbTokenExpiresAt := 3601000, realmId := "r1", createdAt := 3, lastUsedAt := 1000 }),
           ("sC", { qbAccessToken := "a3", qbRefreshToken := "f3", qbTokenExpiresAt := 700, realmId := "r2", createdAt := 5, lastUsedAt := 6 })] k = some
          { s with
            qbAccessToken := "na", qbRefreshToken := "nr",
            qbTokenExpiresAt := 1000 + 3600 * 1000, lastUsedAt := 1000 }) ∧
      (∀ k s, JsMap.get
          [("sA", ({ qbAccessToken := "a1", qbRefreshToken := "f1", qbTokenExpiresAt := 500, realmId := "r1", createdAt := 1, lastUsedAt := 2 } : QuickBooksSession)),
           ("sB", { qbAccessToken := "a2", qbRefreshToken := "f2", qbTokenExpiresAt := 600, realmId := "r1", createdAt := 3, lastUsedAt := 4 }),
           ("sC", { qbAccessToken := "a3", qbRefreshToken := "f3", qbTokenExpiresAt := 700, realmId := "r2", createdAt := 5, lastUsedAt := 6 })] k = some s →
        s.realmId ≠ s₀.realmId →
        JsMap.get
          [("sA", ({ qbAccessToken := "na", qbRefreshToken := "nr", qbTokenExpiresAt := 3601000, realmId := "r1", createdAt := 1, lastUsedAt := 1000 } : QuickBooksSession)),
           ("sB", { qbAccessToken := "na", qbRefreshToken := "nr", qbTokenExpiresAt := 3601000, realmId := "r1", createdAt := 3, lastUsedAt := 1000 }),
           ("sC", { qbAccessToken := "a3", qbRefreshToken := "f3", qbTokenExpiresAt := 700, realmId := "r2", createdAt := 5, lastUsedAt := 6 })] k = some s)) :=
  ⟨by unfold JsMap.Nodup; decide, by rfl,
   refresh_fanout_updates_realm _ "sA"
     { access_token := "na", refresh_token := "nr", expires_in := 3600 } 1000 _
     (by unfold JsMap.Nodup; decide) (by rfl)⟩

/-- C3 (code bug): an interleaving of three concurrent
`refreshQuickBooksTokenIfNeeded` callers for one realm that leaves TWO
`refreshQuickBooksToken` network calls in flight for that realm at once.
Caller 0 acquires the realm mutex and refreshes; the response's
`expires_in` keeps the token inside the 5-minute margin, so when waiting
callers 1 and 2 resume after `await refreshMutexes.get(realmId)` their
re-check still sees a near-expiry token and each calls
`refreshQuickBooksToken` directly — the code never re-reads the mutex map
after the await, so the second spawn overwrites the first in
`refreshMutexes` instead of waiting on it, and both their refresh calls
are simultaneously outstanding, which the per-realm mutex was meant to
exclude. -/
theorem refresh_mutex_two_in_flight :
    inFlightCount (refreshSysRun
      { sessions := [("sA", { qbAccessToken := "a", qbRefreshToken := "f", qbTokenExpiresAt := 100, realmId := "r", createdAt := 0, lastUsedAt := 0 }),
         ("sB", { qbAccessToken := "a", qbRefreshToken := "f", qbTokenExpiresAt := 100, realmId := "r", createdAt := 0, lastUsedAt := 0 }),
         ("sC", { qbAccessToken := "a", qbRefreshToken := "f", qbTokenExpiresAt := 100, realmId := "r", createdAt := 0, lastUsedAt := 0 })],
        mutexes := [],
        tasks := [⟨"sA", .start⟩, ⟨"sB", .start⟩, ⟨"sC", .start⟩],
        refreshes := [], now := 1000000 }
      [.task 0, .task 1, .task 2, .task 0, .task 1, .task 2,
       .refresh 0, .refresh 0, .deliver 0 (some ⟨"a1", "r1", 300⟩),
       .refresh 0, .refresh 0, .refresh 0, .refresh 0,
       .task 0, .task 1, .refresh 1, .refresh 1,
       .task 2, .refresh 2, .refresh 2]) "r" = 2 := by
  decide
